import Mathlib

/-!
Verification development for the denali procedural-noise library.

The library computes exclusively with IEEE-754 binary32 (`f32`) values, so we
first build an exact, executable model of binary32 arithmetic (round to
nearest, ties to even), of the Rust saturating `as i32` cast, and of the
wrapping `i32` integer arithmetic of release builds.  The noise kernels,
fractal compositors and the domain-warp compositor are then translated
function by function from the Rust source.
-/

set_option maxRecDepth 100000

namespace Denali

/-- A binary32 value: sign bit, biased exponent (0..255) and 23-bit fraction.
NaNs are canonicalised to a single quiet NaN. -/
structure F32 where
  sign : Bool
  ex : Nat
  frac : Nat
deriving DecidableEq, Repr

namespace F32

/-- The canonical quiet NaN. -/
def nan : F32 := ⟨false, 255, 4194304⟩

/-- Positive zero. -/
def pzero : F32 := ⟨false, 0, 0⟩

/-- Negative zero. -/
def nzero : F32 := ⟨true, 0, 0⟩

/-- A signed infinity. -/
def inf (s : Bool) : F32 := ⟨s, 255, 0⟩

def isNaN (a : F32) : Bool := a.ex == 255 && a.frac != 0

def isInf (a : F32) : Bool := a.ex == 255 && a.frac == 0

def isZero (a : F32) : Bool := a.ex == 0 && a.frac == 0

def isFinite (a : F32) : Bool := a.ex != 255

/-- Significand and exponent of a finite value: the value is
`(-1)^sign * m * 2^e` where `(m, e)` is the result. -/
def toSig (a : F32) : Nat × Int :=
  if a.ex == 0 then (a.frac, -149) else (8388608 + a.frac, (a.ex : Int) - 150)

/-- Bit length of a number below `2^4`. -/
def blen4 (m : Nat) : Nat :=
  if m == 0 then 0 else if m < 2 then 1 else if m < 4 then 2 else if m < 8 then 3 else 4

/-- Bit length of a number below `2^8`. -/
def blen8 (m : Nat) : Nat := if m < 16 then blen4 m else blen4 (m / 16) + 4

/-- Bit length of a number below `2^16`. -/
def blen16 (m : Nat) : Nat := if m < 256 then blen8 m else blen8 (m / 256) + 8

/-- Bit length of a number below `2^32`. -/
def blen32 (m : Nat) : Nat := if m < 65536 then blen16 m else blen16 (m / 65536) + 16

/-- Bit length of a natural number, by fuel consuming 32 bits per step (all
inputs here fit in 32·128 bits).  Written with explicit structural fuel so
that it reduces inside the kernel. -/
def bitlenAux : Nat → Nat → Nat
  | 0, _ => 0
  | fuel + 1, m =>
    if m < 4294967296 then blen32 m else bitlenAux fuel (m / 4294967296) + 32

def bitlen (m : Nat) : Nat := bitlenAux 128 m

/-- Round `m / 2^sh` to the nearest integer, ties to even. -/
def roundSigRNE (m : Nat) (sh : Nat) : Nat :=
  if sh == 0 then m
  else
    let q := m / 2 ^ sh
    let r := m % 2 ^ sh
    let half := 2 ^ (sh - 1)
    if half < r then q + 1
    else if r < half then q
    else if q % 2 == 1 then q + 1 else q

/-- Round `(-1)^sign * m * 2^e` to the nearest binary32 value, ties to even,
with overflow to infinity and gradual underflow to subnormals. -/
def round (sign : Bool) (m : Nat) (e : Int) : F32 :=
  if m == 0 then ⟨sign, 0, 0⟩
  else
    let k := bitlen m
    let E : Int := e + k - 1
    if E < -126 then
      let sh : Int := e + 149
      let fr := if 0 ≤ sh then m * 2 ^ sh.toNat else roundSigRNE m (-sh).toNat
      if 8388608 ≤ fr then ⟨sign, 1, fr - 8388608⟩ else ⟨sign, 0, fr⟩
    else
      let p : Nat × Int :=
        if k ≤ 24 then (m * 2 ^ (24 - k), E)
        else
          let s2 := roundSigRNE m (k - 24)
          if 16777216 ≤ s2 then (s2 / 2, E + 1) else (s2, E)
      if 127 < p.2 then inf sign
      else ⟨sign, (p.2 + 127).toNat, p.1 - 8388608⟩

def neg (a : F32) : F32 := if a.isNaN then nan else ⟨!a.sign, a.ex, a.frac⟩

def add (a b : F32) : F32 :=
  if a.isNaN || b.isNaN then nan
  else if a.isInf then (if b.isInf && (a.sign != b.sign) then nan else a)
  else if b.isInf then b
  else if a.isZero && b.isZero then (if a.sign && b.sign then nzero else pzero)
  else if a.isZero then b
  else if b.isZero then a
  else
    let sa := a.toSig
    let sb := b.toSig
    let e := min sa.2 sb.2
    let ma := sa.1 * 2 ^ (sa.2 - e).toNat
    let mb := sb.1 * 2 ^ (sb.2 - e).toNat
    if a.sign == b.sign then round a.sign (ma + mb) e
    else if ma == mb then pzero
    else if mb < ma then round a.sign (ma - mb) e
    else round b.sign (mb - ma) e

def sub (a b : F32) : F32 := add a (neg b)

def mul (a b : F32) : F32 :=
  if a.isNaN || b.isNaN then nan
  else
    let s := a.sign != b.sign
    if a.isInf || b.isInf then
      (if a.isZero || b.isZero then nan else inf s)
    else if a.isZero || b.isZero then ⟨s, 0, 0⟩
    else
      let sa := a.toSig
      let sb := b.toSig
      round s (sa.1 * sb.1) (sa.2 + sb.2)

def div (a b : F32) : F32 :=
  if a.isNaN || b.isNaN then nan
  else
    let s := a.sign != b.sign
    if a.isInf then (if b.isInf then nan else inf s)
    else if b.isInf then ⟨s, 0, 0⟩
    else if b.isZero then (if a.isZero then nan else inf s)
    else if a.isZero then ⟨s, 0, 0⟩
    else
      let sa := a.toSig
      let sb := b.toSig
      let q := sa.1 * 2 ^ 64 / sb.1
      let r := sa.1 * 2 ^ 64 % sb.1
      round s (2 * q + (if r == 0 then 0 else 1)) (sa.2 - sb.2 - 65)

/-- The correctly rounded value of the rational `n / d` (`d ≠ 0`), with the
given sign.  Rust parses decimal `f32` literals with exactly this rounding. -/
def ofRat (sign : Bool) (n d : Nat) : F32 :=
  if n == 0 then ⟨sign, 0, 0⟩
  else
    let q := n * 2 ^ 64 / d
    let r := n * 2 ^ 64 % d
    round sign (2 * q + (if r == 0 then 0 else 1)) (-65)

def ofNat (n : Nat) : F32 := round false n 0

def ofInt (i : Int) : F32 :=
  if i < 0 then round true i.natAbs 0 else round false i.natAbs 0

/-- Magnitude of a finite value truncated toward zero, as a natural number. -/
def truncNat (a : F32) : Nat :=
  if a.isZero then 0
  else
    let s := a.toSig
    if 0 ≤ s.2 then s.1 * 2 ^ s.2.toNat else s.1 / 2 ^ (-s.2).toNat

/-- The Rust `as i32` cast: NaN to 0, otherwise truncation toward zero
saturated to `[-2^31, 2^31 - 1]`. -/
def toI32 (a : F32) : Int :=
  if a.isNaN then 0
  else if a.isInf then (if a.sign then -2147483648 else 2147483647)
  else
    let t : Int := if a.sign then -(truncNat a : Int) else (truncNat a : Int)
    max (-2147483648) (min 2147483647 t)

/-- Mathematical truncation toward zero; `none` on NaN and infinities. -/
def truncI (a : F32) : Option Int :=
  if a.isFinite then some (if a.sign then -(truncNat a : Int) else (truncNat a : Int))
  else none

/-- Ordering key for the magnitude of a non-NaN value. -/
def key (a : F32) : Nat := a.ex * 8388608 + a.frac

/-- The IEEE `<` comparison (`false` whenever an operand is NaN). -/
def lt (a b : F32) : Bool :=
  if a.isNaN || b.isNaN then false
  else if a.isZero && b.isZero then false
  else if a.isZero then !b.sign
  else if b.isZero then a.sign
  else
    match a.sign, b.sign with
    | true, false => true
    | false, true => false
    | false, false => a.key < b.key
    | true, true => b.key < a.key

/-- Equality as compared by IEEE (`+0 = -0`, NaN unequal to everything). -/
def eqv (a b : F32) : Bool :=
  if a.isNaN || b.isNaN then false
  else if a.isZero && b.isZero then true
  else a.sign == b.sign && a.ex == b.ex && a.frac == b.frac

/-- The IEEE `≤` comparison. -/
def le (a b : F32) : Bool := lt a b || eqv a b

end F32

instance : Add F32 := ⟨F32.add⟩
instance : Sub F32 := ⟨F32.sub⟩
instance : Mul F32 := ⟨F32.mul⟩
instance : Div F32 := ⟨F32.div⟩
instance : Neg F32 := ⟨F32.neg⟩

instance (n : Nat) : OfNat F32 n := ⟨F32.ofNat n⟩

instance : OfScientific F32 :=
  ⟨fun m b e => if b then F32.ofRat false m (10 ^ e) else F32.ofNat (m * 10 ^ e)⟩

/-- Two-complement wrap of an integer into the `i32` range, the release-mode
semantics of overflowing `i32` arithmetic in Rust. -/
def wrap32 (i : Int) : Int := (i + 2147483648) % 4294967296 - 2147483648

end Denali

namespace Denali

/-- Translation of the 512-entry base table `PERMUTATION` shared by
`src/gen.rs` and `src/simplex/gen.rs` (the second 256 entries repeat the
first 256). -/
def PERMUTATION : List Nat := [
  151, 160, 137, 91, 90, 15, 131, 13, 201, 95, 96, 53, 194, 233, 7, 225, 140, 36, 103, 30,
  69, 142, 8, 99, 37, 240, 21, 10, 23, 190, 6, 148, 247, 120, 234, 75, 0, 26, 197, 62,
  94, 252, 219, 203, 117, 35, 11, 32, 57, 177, 33, 88, 237, 149, 56, 87, 174, 20, 125, 136,
  171, 168, 68, 175, 74, 165, 71, 134, 139, 48, 27, 166, 77, 146, 158, 231, 83, 111, 229, 122,
  60, 211, 133, 230, 220, 105, 92, 41, 55, 46, 245, 40, 244, 102, 143, 54, 65, 25, 63, 161,
  1, 216, 80, 73, 209, 76, 132, 187, 208, 89, 18, 169, 200, 196, 135, 130, 116, 188, 159, 86,
  164, 100, 109, 198, 173, 186, 3, 64, 52, 217, 226, 250, 124, 123, 5, 202, 38, 147, 118, 126,
  255, 82, 85, 212, 207, 206, 59, 227, 47, 16, 58, 17, 182, 189, 28, 42, 223, 183, 170, 213,
  119, 248, 152, 2, 44, 154, 163, 70, 221, 153, 101, 155, 167, 43, 172, 9, 129, 22, 39, 253,
  19, 98, 108, 110, 79, 113, 224, 232, 178, 185, 112, 104, 218, 246, 97, 228, 251, 34, 242, 193,
  238, 210, 144, 12, 191, 179, 162, 241, 81, 51, 145, 235, 249, 14, 239, 107, 49, 192, 214, 31,
  181, 199, 106, 157, 184, 84, 204, 176, 115, 121, 50, 45, 127, 4, 150, 254, 138, 236, 205, 93,
  222, 114, 67, 29, 24, 72, 243, 141, 128, 195, 78, 66, 215, 61, 156, 180, 151, 160, 137, 91,
  90, 15, 131, 13, 201, 95, 96, 53, 194, 233, 7, 225, 140, 36, 103, 30, 69, 142, 8, 99,
  37, 240, 21, 10, 23, 190, 6, 148, 247, 120, 234, 75, 0, 26, 197, 62, 94, 252, 219, 203,
  117, 35, 11, 32, 57, 177, 33, 88, 237, 149, 56, 87, 174, 20, 125, 136, 171, 168, 68, 175,
  74, 165, 71, 134, 139, 48, 27, 166, 77, 146, 158, 231, 83, 111, 229, 122, 60, 211, 133, 230,
  220, 105, 92, 41, 55, 46, 245, 40, 244, 102, 143, 54, 65, 25, 63, 161, 1, 216, 80, 73,
  209, 76, 132, 187, 208, 89, 18, 169, 200, 196, 135, 130, 116, 188, 159, 86, 164, 100, 109, 198,
  173, 186, 3, 64, 52, 217, 226, 250, 124, 123, 5, 202, 38, 147, 118, 126, 255, 82, 85, 212,
  207, 206, 59, 227, 47, 16, 58, 17, 182, 189, 28, 42, 223, 183, 170, 213, 119, 248, 152, 2,
  44, 154, 163, 70, 221, 153, 101, 155, 167, 43, 172, 9, 129, 22, 39, 253, 19, 98, 108, 110,
  79, 113, 224, 232, 178, 185, 112, 104, 218, 246, 97, 228, 251, 34, 242, 193, 238, 210, 144, 12,
  191, 179, 162, 241, 81, 51, 145, 235, 249, 14, 239, 107, 49, 192, 214, 31, 181, 199, 106, 157,
  184, 84, 204, 176, 115, 121, 50, 45, 127, 4, 150, 254, 138, 236, 205, 93, 222, 114, 67, 29,
  24, 72, 243, 141, 128, 195, 78, 66, 215, 61, 156, 180]

/- Kernels of `src/simplex/gen.rs`. -/
namespace SimplexGen

/-- Translation of `modulo` (`x % m` is the truncated remainder of Rust,
then shifted into `[0, m)` and cast to `usize`). -/
def modulo (x : Int) (m : Int) : Nat :=
  let a := Int.tmod x m
  if 0 > a then (a + m).toNat else a.toNat

/-- Translation of `fast_floor`.  The `x as i32` cast saturates; in release
mode the `- 1` in the non-positive branch wraps at `i32::MIN`. -/
def fast_floor (x : F32) : Int :=
  if F32.lt 0.0 x then F32.toI32 x else wrap32 (F32.toI32 x - 1)

/-- Translation of `gradient_1d`. -/
def gradient_1d (hash : Nat) (x : F32) : F32 :=
  let h := hash &&& 15
  let grad : F32 := 1.0 + F32.ofNat (h &&& 7)
  let grad := if h &&& 8 != 0 then -grad else grad
  grad * x

/-- Translation of `simplex1d`.  The index `i0 & 0xff` is the low byte of the
two-complement representation, that is `i0.emod 256`. -/
def simplex1d (x : F32) (perm : List Nat) : F32 :=
  let i0 := fast_floor x
  let i1 := wrap32 (i0 + 1)
  let x0 := x - F32.ofInt i0
  let x1 := x0 - 1.0
  let n : F32 := 0.0
  let t : F32 := 1.0 - x0 * x0
  let t := t * t
  let n := n + t * t * gradient_1d (perm.getD (Int.emod i0 256).toNat 0) x0
  let t : F32 := 1.0 - x1 * x1
  let t := t * t
  let n := n + t * t * gradient_1d (perm.getD (Int.emod i1 256).toNat 0) x1
  0.395 * n

def F2 : F32 := 0.366025403

def G2 : F32 := 0.211324865

/-- Translation of `gradient_2d`. -/
def gradient_2d (hash : Nat) (x y : F32) : F32 :=
  let h := hash &&& 7
  let u : F32 := if h < 4 then x else y
  let v : F32 := if h < 4 then y else x
  let u := if h &&& 1 != 0 then u * (-1.0) else u
  u + (if h &&& 2 != 0 then (-2.0) * v else 2.0 * v)

/-- Translation of `simplex2d`.  The sum `i + j` is wrapping `i32` addition
in release mode. -/
def simplex2d (x y : F32) (perm : List Nat) : F32 :=
  let s := (x + y) * F2
  let xs := x + s
  let ys := y + s
  let i := fast_floor xs
  let j := fast_floor ys
  let t : F32 := F32.ofInt (wrap32 (i + j)) * G2
  let x_0 := F32.ofInt i - t
  let y_0 := F32.ofInt j - t
  let x_0 := x - x_0
  let y_0 := y - y_0
  let i1 : Nat := if F32.lt y_0 x_0 then 1 else 0
  let j1 : Nat := if F32.lt y_0 x_0 then 0 else 1
  let x1 := x_0 - F32.ofNat i1 + G2
  let y1 := y_0 - F32.ofNat j1 + G2
  let x2 := x_0 - 1.0 + 2.0 * G2
  let y2 := y_0 - 1.0 + 2.0 * G2
  let ii := modulo i 256
  let jj := modulo j 256
  let n : F32 := 0.0
  let t0 : F32 := 0.5 - x_0 * x_0 - y_0 * y_0
  let n := if F32.le 0.0 t0 then
      let t0 := t0 * t0
      n + t0 * t0 * gradient_2d (perm.getD (ii + perm.getD jj 0) 0) x_0 y_0
    else n
  let t1 : F32 := 0.5 - x1 * x1 - y1 * y1
  let n := if F32.le 0.0 t1 then
      let t1 := t1 * t1
      n + t1 * t1 * gradient_2d (perm.getD (ii + i1 + perm.getD (jj + j1) 0) 0) x1 y1
    else n
  let t2 : F32 := 0.5 - x2 * x2 - y2 * y2
  let n := if F32.le 0.0 t2 then
      let t2 := t2 * t2
      n + t2 * t2 * gradient_2d (perm.getD (ii + 1 + perm.getD (jj + 1) 0) 0) x2 y2
    else n
  40.0 * n

def F3 : F32 := 0.333333333

def G3 : F32 := 0.166666667

/-- Translation of `gradient_3d`. -/
def gradient_3d (hash : Nat) (x y z : F32) : F32 :=
  let h := hash &&& 15
  let u : F32 := if h < 8 then x else y
  let v : F32 := if h < 4 then y else if h == 12 || h == 14 then x else z
  (if h &&& 1 != 0 then -u else u) + (if h &&& 2 != 0 then -v else v)

/-- Corner-order selection of `simplex3d`: the six orderings of the axes. -/
def corners3 (x0 y0 z0 : F32) : Nat × Nat × Nat × Nat × Nat × Nat :=
  if F32.le y0 x0 then
    if F32.le z0 y0 then (1, 0, 0, 1, 1, 0)
    else if F32.le z0 x0 then (1, 0, 0, 1, 0, 1)
    else (0, 0, 1, 1, 0, 1)
  else
    if F32.lt y0 z0 then (0, 0, 1, 0, 1, 1)
    else if F32.lt x0 z0 then (0, 1, 0, 0, 1, 1)
    else (0, 1, 0, 1, 1, 0)

/-- Translation of `simplex3d`. -/
def simplex3d (x y z : F32) (perm : List Nat) : F32 :=
  let s := (x + y + z) * F3
  let i := fast_floor (x + s)
  let j := fast_floor (y + s)
  let k := fast_floor (z + s)
  let t : F32 := F32.ofInt (wrap32 (wrap32 (i + j) + k)) * G3
  let x0 := x - (F32.ofInt i - t)
  let y0 := y - (F32.ofInt j - t)
  let z0 := z - (F32.ofInt k - t)
  let c := corners3 x0 y0 z0
  let i1 := c.1
  let j1 := c.2.1
  let k1 := c.2.2.1
  let i2 := c.2.2.2.1
  let j2 := c.2.2.2.2.1
  let k2 := c.2.2.2.2.2
  let x1 := x0 - F32.ofNat i1 + G3
  let y1 := y0 - F32.ofNat j1 + G3
  let z1 := z0 - F32.ofNat k1 + G3
  let x2 := x0 - F32.ofNat i2 + 2.0 * G3
  let y2 := y0 - F32.ofNat j2 + 2.0 * G3
  let z2 := z0 - F32.ofNat k2 + 2.0 * G3
  let x3 := x0 - 1.0 + 3.0 * G3
  let y3 := y0 - 1.0 + 3.0 * G3
  let z3 := z0 - 1.0 + 3.0 * G3
  let ii := modulo i 256
  let jj := modulo j 256
  let kk := modulo k 256
  let n : F32 := 0.0
  let t0 : F32 := 0.6 - x0 * x0 - y0 * y0 - z0 * z0
  let n := if F32.le 0.0 t0 then
      let t0 := t0 * t0
      n + t0 * t0 *
        gradient_3d (perm.getD (ii + perm.getD (jj + perm.getD kk 0) 0) 0) x0 y0 z0
    else n
  let t1 : F32 := 0.6 - x1 * x1 - y1 * y1 - z1 * z1
  let n := if F32.le 0.0 t1 then
      let t1 := t1 * t1
      n + t1 * t1 *
        gradient_3d (perm.getD (ii + i1 + perm.getD (jj + j1 + perm.getD (kk + k1) 0) 0) 0) x1 y1 z1
    else n
  let t2 : F32 := 0.6 - x2 * x2 - y2 * y2 - z2 * z2
  let n := if F32.le 0.0 t2 then
      let t2 := t2 * t2
      n + t2 * t2 *
        gradient_3d (perm.getD (ii + i2 + perm.getD (jj + j2 + perm.getD (kk + k2) 0) 0) 0) x2 y2 z2
    else n
  let t3 : F32 := 0.6 - x3 * x3 - y3 * y3 - z3 * z3
  let n := if F32.le 0.0 t3 then
      let t3 := t3 * t3
      n + t3 * t3 *
        gradient_3d (perm.getD (ii + 1 + perm.getD (jj + 1 + perm.getD (kk + 1) 0) 0) 0) x3 y3 z3
    else n
  32.0 * n

end SimplexGen

end Denali

namespace Denali

/- Kernels of `src/gen.rs` (the second, near-duplicate kernel module used by
`SimplexNoise` in `src/lib.rs`). -/
namespace LibGen

/-- Translation of `fast_floor` from `src/gen.rs`. -/
def fast_floor (x : F32) : Int :=
  if F32.lt 0.0 x then F32.toI32 x else wrap32 (F32.toI32 x - 1)

/-- Translation of `modulo` from `src/gen.rs` (returns `i32` in the source;
its value always lies in `[0, m)`, here represented as `Nat`). -/
def modulo (x : Int) (m : Int) : Nat :=
  let a := Int.tmod x m
  if 0 > a then (a + m).toNat else a.toNat

/-- Translation of `gradient` from `src/gen.rs`. -/
def gradient (hash : Nat) (x y : F32) : F32 :=
  let h := hash &&& 7
  let u : F32 := if h < 4 then x else y
  let v : F32 := if h < 4 then y else x
  let u := if h &&& 1 != 0 then u * (-1.0) else u
  u + (if h &&& 2 != 0 then (-2.0) * v else 2.0 * v)

/-- Translation of `simplex2d` from `src/gen.rs`.  Note the corner guards:
this variant tests `if t < 0.0 { 0 } else { contribution }`, so a NaN
falloff value takes the contribution branch (unlike the kernel in
`src/simplex/gen.rs`, which tests `t >= 0.0`). -/
def simplex2d (x y : F32) (perm : List Nat) : F32 :=
  let s := (x + y) * SimplexGen.F2
  let xs := x + s
  let ys := y + s
  let i := fast_floor xs
  let j := fast_floor ys
  let t : F32 := F32.ofInt (wrap32 (i + j)) * SimplexGen.G2
  let x_0 := F32.ofInt i - t
  let y_0 := F32.ofInt j - t
  let x_0 := x - x_0
  let y_0 := y - y_0
  let i1 : Nat := if F32.lt y_0 x_0 then 1 else 0
  let j1 : Nat := if F32.lt y_0 x_0 then 0 else 1
  let x1 := x_0 - F32.ofNat i1 + SimplexGen.G2
  let y1 := y_0 - F32.ofNat j1 + SimplexGen.G2
  let x2 := x_0 - 1.0 + 2.0 * SimplexGen.G2
  let y2 := y_0 - 1.0 + 2.0 * SimplexGen.G2
  let ii := modulo i 256
  let jj := modulo j 256
  let t0 : F32 := 0.5 - x_0 * x_0 - y_0 * y_0
  let n0 : F32 :=
    if F32.lt t0 0.0 then 0.0
    else
      let t0 := t0 * t0
      t0 * t0 * gradient (perm.getD (ii + perm.getD jj 0) 0) x_0 y_0
  let t1 : F32 := 0.5 - x1 * x1 - y1 * y1
  let n1 : F32 :=
    if F32.lt t1 0.0 then 0.0
    else
      let t1 := t1 * t1
      t1 * t1 * gradient (perm.getD (ii + i1 + perm.getD (jj + j1) 0) 0) x1 y1
  let t2 : F32 := 0.5 - x2 * x2 - y2 * y2
  let n2 : F32 :=
    if F32.lt t2 0.0 then 0.0
    else
      let t2 := t2 * t2
      t2 * t2 * gradient (perm.getD (ii + 1 + perm.getD (jj + 1) 0) 0) x2 y2
  40.0 * (n0 + n1 + n2)

end LibGen

/-- Translation of the `Simplex` generator of `src/simplex/mod.rs`.  The
`u128` seed is represented as `Nat`; the permutation table as a list of byte
values. -/
structure Simplex where
  octaves : Nat
  x_frequency : F32
  y_frequency : F32
  z_frequency : F32
  lacunarity : F32
  persistence : F32
  max : F32
  min : F32
  perm : List Nat
  seed : Nat
deriving DecidableEq

namespace Simplex

/-- Loop body of `Simplex::generate2D`, one recursion step per octave, with
the running state `(output, denom, xfreq, yfreq, amp)` threaded exactly in
source order. -/
def fbm2Loop (perm : List Nat) (lac pers x y : F32) :
    Nat → F32 → F32 → F32 → F32 → F32 → F32 × F32
  | 0, output, denom, _, _, _ => (output, denom)
  | n + 1, output, denom, xfreq, yfreq, amp =>
    fbm2Loop perm lac pers x y n
      (output + amp * SimplexGen.simplex2d (x * xfreq) (y * yfreq) perm)
      (denom + amp) (xfreq * lac) (yfreq * lac) (amp * pers)

/-- Translation of `Simplex::generate2D`. -/
def generate2D (g : Simplex) (x y : F32) : F32 :=
  let p := fbm2Loop g.perm g.lacunarity g.persistence x y g.octaves
    0.0 0.0 g.x_frequency g.y_frequency 1.0
  (p.1 / p.2 + 1.0) * (g.max - g.min) / 2.0 + g.min

/-- Loop body of `Simplex::generate3D`. -/
def fbm3Loop (perm : List Nat) (lac pers x y z : F32) :
    Nat → F32 → F32 → F32 → F32 → F32 → F32 → F32 × F32
  | 0, output, denom, _, _, _, _ => (output, denom)
  | n + 1, output, denom, xfreq, yfreq, zfreq, amp =>
    fbm3Loop perm lac pers x y z n
      (output + amp * SimplexGen.simplex3d (x * xfreq) (y * yfreq) (z * zfreq) perm)
      (denom + amp) (xfreq * lac) (yfreq * lac) (zfreq * lac) (amp * pers)

/-- Translation of `Simplex::generate3D`. -/
def generate3D (g : Simplex) (x y z : F32) : F32 :=
  let p := fbm3Loop g.perm g.lacunarity g.persistence x y z g.octaves
    0.0 0.0 g.x_frequency g.y_frequency g.z_frequency 1.0
  (p.1 / p.2 + 1.0) * (g.max - g.min) / 2.0 + g.min

/-- Translation of `Simplex::set_range`. -/
def set_range (g : Simplex) (maxv minv : F32) : Simplex :=
  { g with max := maxv, min := minv }

/-- Translation of `Simplex::generate_noisemap2D`: for `x` in `0..map_width`
and `y` in `0..(map.len() / map_width)` write `generate2D(x_start + x,
y_start + y)` at index `x + map_width * y`. -/
def generate_noisemap2D (g : Simplex) (x_start y_start : F32)
    (map : List F32) (map_width : Nat) : List F32 :=
  (List.range map_width).foldl
    (fun m x =>
      (List.range (m.length / map_width)).foldl
        (fun m2 y =>
          m2.set (x + map_width * y)
            (g.generate2D (x_start + F32.ofNat x) (y_start + F32.ofNat y))) m)
    map

/-- Translation of the `PartialEq` implementation for `Simplex`: equality
compares only the seeds. -/
def eq (a b : Simplex) : Bool := a.seed == b.seed

end Simplex

/-- Translation of the `SimplexNoise` generator of `src/lib.rs` (no z
frequency field). -/
structure SimplexNoise where
  octaves : Nat
  x_frequency : F32
  y_frequency : F32
  lacunarity : F32
  persistence : F32
  max : F32
  min : F32
  perm : List Nat
deriving DecidableEq

namespace SimplexNoise

/-- Loop body of `SimplexNoise::generate2D`: the frequency step is ADDITIVE
(`xfreq += lacunarity`). -/
def fbm2Loop (perm : List Nat) (lac pers x y : F32) :
    Nat → F32 → F32 → F32 → F32 → F32 → F32 × F32
  | 0, output, denom, _, _, _ => (output, denom)
  | n + 1, output, denom, xfreq, yfreq, amp =>
    fbm2Loop perm lac pers x y n
      (output + amp * LibGen.simplex2d (x * xfreq) (y * yfreq) perm)
      (denom + amp) (xfreq + lac) (yfreq + lac) (amp * pers)

/-- Translation of `SimplexNoise::generate2D`. -/
def generate2D (g : SimplexNoise) (x y : F32) : F32 :=
  let p := fbm2Loop g.perm g.lacunarity g.persistence x y g.octaves
    0.0 0.0 g.x_frequency g.y_frequency 1.0
  (p.1 / p.2 + 1.0) * (g.max - g.min) / 2.0 + g.min

/-- Translation of `SimplexNoise::generate3D`.  The body is the 2D loop: it
calls the 2D kernel `simplex2d(x * xfreq, y * yfreq)` and never reads `z`. -/
def generate3D (g : SimplexNoise) (x y z : F32) : F32 :=
  let p := fbm2Loop g.perm g.lacunarity g.persistence x y g.octaves
    0.0 0.0 g.x_frequency g.y_frequency 1.0
  (p.1 / p.2 + 1.0) * (g.max - g.min) / 2.0 + g.min

end SimplexNoise

/-- Translation of `DomainWarp` from `src/warp/mod.rs`. -/
structure DomainWarp where
  simplex1 : Simplex
  simplex2 : Simplex
  simplex3 : Simplex
  warps : Fin 6 → F32
  weight : F32

/-- Translation of `domain_warp2d` from `src/warp/gen.rs`.  Note that
`warps[4]` is used for BOTH coordinates of the `ry` sample and that
`warps[5]` is never read. -/
def domain_warp2d (warp : DomainWarp) (x y : F32) : F32 :=
  let qx := warp.simplex1.generate2D x y
  let qy := warp.simplex1.generate2D (y + warp.warps 0) (x + warp.warps 1)
  let rx := warp.simplex2.generate2D (x + warp.weight * qx + warp.warps 2)
    (y + warp.weight * qy + warp.warps 3)
  let ry := warp.simplex2.generate2D (x + warp.weight * qx + warp.warps 4)
    (y + warp.weight * qy + warp.warps 4)
  warp.simplex3.generate2D (x + warp.weight * rx) (y + warp.weight * ry)

/-- Translation of `DomainWarp::generate2D`. -/
def DomainWarp.generate2D (w : DomainWarp) (x y : F32) : F32 := domain_warp2d w x y

/-- One in-place swap of two list positions. -/
def listSwap (l : List Nat) (i j : Nat) : List Nat :=
  let a := l.getD i 0
  let b := l.getD j 0
  (l.set i b).set j a

/-- Whole-array swap shuffle: one pass over every index of the list, each
index swapped with a partner drawn from the random stream `picks`.  This is
the shape of the in-place `rng.shuffle(&mut perm)` call of `get_perm`, with
the stream of the external PRNG abstracted as `picks`. -/
def shuffleSwaps (l : List Nat) (picks : Nat → Nat) : List Nat :=
  (List.range l.length).foldl (fun acc idx => listSwap acc idx (picks idx % l.length)) l

/-- Translation of `get_perm` (`src/simplex/gen.rs` and `src/gen.rs`): the
seeded shuffle is applied to the ENTIRE 512-entry base array and the result
is returned as is, with no re-duplication of the first half into the second. -/
def get_perm (picks : Nat → Nat) : List Nat := shuffleSwaps PERMUTATION picks

/-- Translation of `Simplex::change_seed`: the table is rebuilt wholesale
from the new seed (PRNG stream again abstracted). -/
def Simplex.change_seed (g : Simplex) (seed : Nat) (picks : Nat → Nat) : Simplex :=
  { g with seed := seed, perm := get_perm picks }

/-- Decidable check of the claimed table invariant: the first 256 entries
contain every byte value 0..255 exactly once, and the second 256 entries
repeat the first 256 elementwise. -/
def tableOk (l : List Nat) : Bool :=
  ((List.range 256).all fun v => (l.take 256).count v == 1) && l.drop 256 == l.take 256

/-- Modelled from the spec: the specification describes `get_perm` as
applying the seeded Fisher-Yates shuffle ONLY to the first 256 entries of
the base table and then duplicating them into the second 256.  The shuffle
itself is abstracted as an arbitrary permutation `σ` of the 256 positions. -/
def get_perm_spec (σ : Equiv.Perm (Fin 256)) : List Nat :=
  let first := (List.finRange 256).map fun i => (PERMUTATION.take 256).getD (σ i) 0
  first ++ first

end Denali

namespace Denali

/- Specification-side definitions: the fBm compositors as the specification
words them (per-octave frequencies and amplitudes indexed by octave number),
and the domain-warp recipe of §4.6. -/

/-- Value of a quantity that starts at `a` and is multiplied by `step` once
per completed octave (`freq *= lacunarity`, `amp *= persistence`). -/
def iterMul (a step : F32) : Nat → F32
  | 0 => a
  | k + 1 => iterMul a step k * step

/-- Value of a quantity that starts at `a` and is incremented by `step` once
per completed octave (`freq += lacunarity`). -/
def iterAdd (a step : F32) : Nat → F32
  | 0 => a
  | k + 1 => iterAdd a step k + step

/-- Range remap of the specification:
`((sum/denominator)+1) * (max-min)/2 + min`. -/
def remap (q maxv minv : F32) : F32 := (q + 1.0) * (maxv - minv) / 2.0 + minv

/-- Specification form of `Simplex::generate2D` (multiplicative stepping):
for k in 0..octaves accumulate `amp_k * kernel(x*freqX_k, y*freqY_k)` and the
amplitude sum, then remap; `freq_k` multiplies by the lacunarity per octave
and `amp_k` multiplies by the persistence per octave. -/
def Simplex.generate2D_spec (g : Simplex) (x y : F32) : F32 :=
  let S := (List.range g.octaves).foldl
    (fun acc k =>
      (acc.1 + iterMul 1.0 g.persistence k *
        SimplexGen.simplex2d (x * iterMul g.x_frequency g.lacunarity k)
          (y * iterMul g.y_frequency g.lacunarity k) g.perm,
       acc.2 + iterMul 1.0 g.persistence k))
    (0.0, 0.0)
  remap (S.1 / S.2) g.max g.min

/-- Specification form of `Simplex::generate3D`: the 3D kernel is evaluated
at the z-scaled point `(x*freqX_k, y*freqY_k, z*freqZ_k)` of every octave. -/
def Simplex.generate3D_spec (g : Simplex) (x y z : F32) : F32 :=
  let S := (List.range g.octaves).foldl
    (fun acc k =>
      (acc.1 + iterMul 1.0 g.persistence k *
        SimplexGen.simplex3d (x * iterMul g.x_frequency g.lacunarity k)
          (y * iterMul g.y_frequency g.lacunarity k)
          (z * iterMul g.z_frequency g.lacunarity k) g.perm,
       acc.2 + iterMul 1.0 g.persistence k))
    (0.0, 0.0)
  remap (S.1 / S.2) g.max g.min

/-- Specification form of `SimplexNoise::generate2D` (additive stepping):
same accumulation, but `freq_k` ADDS the lacunarity per octave. -/
def SimplexNoise.generate2D_spec (g : SimplexNoise) (x y : F32) : F32 :=
  let S := (List.range g.octaves).foldl
    (fun acc k =>
      (acc.1 + iterMul 1.0 g.persistence k *
        LibGen.simplex2d (x * iterAdd g.x_frequency g.lacunarity k)
          (y * iterAdd g.y_frequency g.lacunarity k) g.perm,
       acc.2 + iterMul 1.0 g.persistence k))
    (0.0, 0.0)
  remap (S.1 / S.2) g.max g.min

/-- Five-step domain-warp recipe of the specification (§4.6), including the
reuse of `offsets[4]` for both coordinates of the `ry` sample. -/
def domainWarpRecipe (w : DomainWarp) (x y : F32) : F32 :=
  let qx := w.simplex1.generate2D x y
  let qy := w.simplex1.generate2D (y + w.warps 0) (x + w.warps 1)
  let rx := w.simplex2.generate2D (x + w.weight * qx + w.warps 2)
    (y + w.weight * qy + w.warps 3)
  let ry := w.simplex2.generate2D (x + w.weight * qx + w.warps 4)
    (y + w.weight * qy + w.warps 4)
  w.simplex3.generate2D (x + w.weight * rx) (y + w.weight * ry)

/- Concrete sample generators used by witnesses and counterexamples. -/

/-- A one-octave generator over the base table, range `[-1, 1]`. -/
def sampleGen : Simplex := ⟨1, 1.0, 1.0, 1.0, 1.0, 1.0, 1.0, -1.0, PERMUTATION, 1⟩

/-- A zero-octave (degenerate) generator. -/
def sampleGen0 : Simplex := ⟨0, 1.0, 1.0, 1.0, 1.0, 1.0, 1.0, -1.0, PERMUTATION, 1⟩

/-- A two-octave generator with negative persistence, range `[-1, 1]`. -/
def sampleGenNC : Simplex := ⟨2, 1.0, 1.0, 1.0, 2.0, -0.5, 1.0, -1.0, PERMUTATION, 1⟩

/-- A generator with the same seed as `sampleGen` but every configuration
field different. -/
def sampleGenB : Simplex := ⟨3, 0.5, 0.25, 0.75, 2.5, 0.5, 255.0, 10.0, PERMUTATION, 1⟩

/-- A sample `SimplexNoise` generator. -/
def sampleNoise : SimplexNoise := ⟨2, 1.0, 1.0, 0.5, 0.5, 1.0, -1.0, PERMUTATION⟩

/-- A domain warp with zero offsets and zero weight over healthy generators. -/
def warpGood : DomainWarp := ⟨sampleGen, sampleGen, sampleGen, fun _ => F32.pzero, F32.pzero⟩

/-- A domain warp with zero offsets and zero weight whose SECOND generator is
degenerate (zero octaves), so its samples are NaN. -/
def warpBad : DomainWarp := ⟨sampleGen, sampleGen0, sampleGen, fun _ => F32.pzero, F32.pzero⟩

/- Loop-to-indexed-form lemmas. -/

lemma foldl_congr_aux {α β : Type} (F G : α → β → α) (A B : α) (l : List β)
    (hF : F = G) (hA : A = B) : List.foldl F A l = List.foldl G B l := by
  rw [hF, hA]

lemma iterMul_succ_shift (a step : F32) (k : Nat) :
    iterMul a step (k + 1) = iterMul (a * step) step k := by
  induction k with
  | zero => rfl
  | succ k ih =>
    show iterMul a step (k + 1) * step = iterMul (a * step) step k * step
    rw [ih]

lemma iterAdd_succ_shift (a step : F32) (k : Nat) :
    iterAdd a step (k + 1) = iterAdd (a + step) step k := by
  induction k with
  | zero => rfl
  | succ k ih =>
    show iterAdd a step (k + 1) + step = iterAdd (a + step) step k + step
    rw [ih]

lemma Simplex.fbm2Loop_eq_foldl (perm : List Nat) (lac pers x y : F32) :
    ∀ (n : Nat) (out den xf yf amp : F32),
    Simplex.fbm2Loop perm lac pers x y n out den xf yf amp =
      (List.range n).foldl
        (fun acc k =>
          (acc.1 + iterMul amp pers k *
            SimplexGen.simplex2d (x * iterMul xf lac k) (y * iterMul yf lac k) perm,
           acc.2 + iterMul amp pers k))
        (out, den) := by
  intro n
  induction n with
  | zero => intro out den xf yf amp; rfl
  | succ n ih =>
    intro out den xf yf amp
    rw [Simplex.fbm2Loop, ih, List.range_succ_eq_map, List.foldl_cons, List.foldl_map]
    refine foldl_congr_aux _ _ _ _ _ ?_ rfl
    funext acc k
    simp only [Nat.succ_eq_add_one, iterMul_succ_shift]

lemma Simplex.fbm3Loop_eq_foldl (perm : List Nat) (lac pers x y z : F32) :
    ∀ (n : Nat) (out den xf yf zf amp : F32),
    Simplex.fbm3Loop perm lac pers x y z n out den xf yf zf amp =
      (List.range n).foldl
        (fun acc k =>
          (acc.1 + iterMul amp pers k *
            SimplexGen.simplex3d (x * iterMul xf lac k) (y * iterMul yf lac k)
              (z * iterMul zf lac k) perm,
           acc.2 + iterMul amp pers k))
        (out, den) := by
  intro n
  induction n with
  | zero => intro out den xf yf zf amp; rfl
  | succ n ih =>
    intro out den xf yf zf amp
    rw [Simplex.fbm3Loop, ih, List.range_succ_eq_map, List.foldl_cons, List.foldl_map]
    refine foldl_congr_aux _ _ _ _ _ ?_ rfl
    funext acc k
    simp only [Nat.succ_eq_add_one, iterMul_succ_shift]

lemma SimplexNoise.fbm2LoopAdd_eq_foldl (perm : List Nat) (lac pers x y : F32) :
    ∀ (n : Nat) (out den xf yf amp : F32),
    SimplexNoise.fbm2Loop perm lac pers x y n out den xf yf amp =
      (List.range n).foldl
        (fun acc k =>
          (acc.1 + iterMul amp pers k *
            LibGen.simplex2d (x * iterAdd xf lac k) (y * iterAdd yf lac k) perm,
           acc.2 + iterMul amp pers k))
        (out, den) := by
  intro n
  induction n with
  | zero => intro out den xf yf amp; rfl
  | succ n ih =>
    intro out den xf yf amp
    rw [SimplexNoise.fbm2Loop, ih, List.range_succ_eq_map, List.foldl_cons, List.foldl_map]
    refine foldl_congr_aux _ _ _ _ _ ?_ rfl
    funext acc k
    simp only [Nat.succ_eq_add_one, iterMul_succ_shift, iterAdd_succ_shift]

end Denali

namespace Denali

/-- C3: Simplex::generate2D steps multiplicatively (freq *= lacunarity,
amp *= persistence) and SimplexNoise::generate2D steps additively
(freq += lacunarity, amp *= persistence); in both, the returned value is
exactly ((sum/denominator)+1)*(max-min)/2 + min computed in f32, and no
clamping into [min, max] is applied: a concrete generator and input are
exhibited whose output strictly exceeds max. -/
theorem claim_c3_octave_stepping :
    (∀ (g : Simplex) (x y : F32), g.generate2D x y = Simplex.generate2D_spec g x y) ∧
    (∀ (g : SimplexNoise) (x y : F32), g.generate2D x y = SimplexNoise.generate2D_spec g x y) ∧
    F32.lt sampleGenNC.max (sampleGenNC.generate2D (-1000.0) (-9.0)) = true := by
  refine ⟨?_, ?_, by decide⟩
  · intro g x y
    unfold Simplex.generate2D Simplex.generate2D_spec remap
    rw [Simplex.fbm2Loop_eq_foldl]
  · intro g x y
    unfold SimplexNoise.generate2D SimplexNoise.generate2D_spec remap
    rw [SimplexNoise.fbm2LoopAdd_eq_foldl]

/-- C2: Simplex::generate3D evaluates the 3D kernel at the z-scaled point of
every octave (first conjunct), but SimplexNoise::generate3D does NOT: its
output is independent of z (second conjunct) and in fact coincides with its
own 2D generator (third conjunct), because its body applies the 2D kernel to
(x*xfreq, y*yfreq) and never reads z. -/
theorem claim_c2_generate3D_kernel :
    (∀ (g : Simplex) (x y z : F32), g.generate3D x y z = Simplex.generate3D_spec g x y z) ∧
    (∀ (g : SimplexNoise) (x y z zp : F32), g.generate3D x y z = g.generate3D x y zp) ∧
    (∀ (g : SimplexNoise) (x y z : F32), g.generate3D x y z = g.generate2D x y) := by
  refine ⟨?_, fun g x y z zp => rfl, fun g x y z => rfl⟩
  intro g x y z
  unfold Simplex.generate3D Simplex.generate3D_spec remap
  rw [Simplex.fbm3Loop_eq_foldl]

/-- C7: with octaves = 0 the octave loop runs zero times, the amplitude sum
is 0, the normalisation divides 0 by 0, and both generate2D and generate3D
return the (non-finite) NaN for every input. -/
theorem claim_c7_octaves_zero (g : Simplex) (x y z : F32) (h : g.octaves = 0) :
    g.generate2D x y = F32.nan ∧ (g.generate2D x y).isFinite = false ∧
    g.generate3D x y z = F32.nan ∧ (g.generate3D x y z).isFinite = false := by
  obtain ⟨oct, xf, yf, zf, lac, pers, mx, mn, perm, seed⟩ := g
  obtain rfl : oct = 0 := h
  exact ⟨rfl, rfl, rfl, rfl⟩

/-- Witness for C7 at a concrete zero-octave generator and input. -/
theorem claim_c7_witness :
    sampleGen0.octaves = 0 ∧ sampleGen0.generate2D 2.5 3.5 = F32.nan ∧
      sampleGen0.generate3D 2.5 3.5 4.5 = F32.nan :=
  ⟨rfl, (claim_c7_octaves_zero sampleGen0 2.5 3.5 4.5 rfl).1,
    (claim_c7_octaves_zero sampleGen0 2.5 3.5 4.5 rfl).2.2.1⟩

/-- C9: equality of two Simplex generators holds exactly when the seeds are
equal; in particular two generators differing in every configuration field
but sharing a seed compare equal. -/
theorem claim_c9_eq_by_seed :
    (∀ a b : Simplex, Simplex.eq a b = true ↔ a.seed = b.seed) ∧
    (Simplex.eq sampleGen sampleGenB = true ∧ sampleGen.octaves ≠ sampleGenB.octaves ∧
     sampleGen.x_frequency ≠ sampleGenB.x_frequency ∧
     sampleGen.y_frequency ≠ sampleGenB.y_frequency ∧
     sampleGen.z_frequency ≠ sampleGenB.z_frequency ∧
     sampleGen.lacunarity ≠ sampleGenB.lacunarity ∧
     sampleGen.persistence ≠ sampleGenB.persistence ∧
     sampleGen.max ≠ sampleGenB.max ∧ sampleGen.min ≠ sampleGenB.min) := by
  refine ⟨fun a b => ?_, by decide⟩
  simp [Simplex.eq]

/-- C5: DomainWarp::generate2D computes exactly the five-step recipe of the
specification (with offsets[4] reused for both coordinates of the ry
sample), and offsets[5] is never read: replacing it changes nothing. -/
theorem claim_c5_warp_recipe :
    (∀ (w : DomainWarp) (x y : F32), w.generate2D x y = domainWarpRecipe w x y) ∧
    (∀ (w : DomainWarp) (x y v : F32),
      DomainWarp.generate2D { w with warps := Function.update w.warps 5 v } x y =
        w.generate2D x y) := by
  refine ⟨fun w x y => rfl, fun w x y v => ?_⟩
  show domain_warp2d _ x y = domain_warp2d w x y
  unfold domain_warp2d
  dsimp only
  rw [Function.update_noteq (by decide : (0 : Fin 6) ≠ 5),
    Function.update_noteq (by decide : (1 : Fin 6) ≠ 5),
    Function.update_noteq (by decide : (2 : Fin 6) ≠ 5),
    Function.update_noteq (by decide : (3 : Fin 6) ≠ 5),
    Function.update_noteq (by decide : (4 : Fin 6) ≠ 5)]

end Denali

namespace Denali

lemma fin_not_nan {q : F32} (h : q.isFinite = true) : q.isNaN = false := by
  unfold F32.isFinite at h
  unfold F32.isNaN
  simp only [bne_iff_ne, ne_eq] at h
  simp [h]

lemma fin_not_inf {q : F32} (h : q.isFinite = true) : q.isInf = false := by
  unfold F32.isFinite at h
  unfold F32.isInf
  simp only [bne_iff_ne, ne_eq] at h
  simp [h]

/-- Multiplying a zero by a finite value gives a zero (of some sign). -/
lemma mul_zero_finite (wv q : F32) (hw : wv.isZero = true) (hq : q.isFinite = true) :
    (wv * q).isZero = true := by
  show (F32.mul wv q).isZero = true
  have h1 : wv.isNaN = false := by
    unfold F32.isZero at hw
    unfold F32.isNaN
    simp only [Bool.and_eq_true, beq_iff_eq] at hw
    simp [hw.1]
  have h2 : wv.isInf = false := by
    unfold F32.isZero at hw
    unfold F32.isInf
    simp only [Bool.and_eq_true, beq_iff_eq] at hw
    simp [hw.1]
  obtain ⟨hwe, hwf⟩ : wv.ex = 0 ∧ wv.frac = 0 := by simpa [F32.isZero] using hw
  unfold F32.mul
  simp [h1, h2, fin_not_nan hq, fin_not_inf hq, hwe, hwf, F32.isZero]

/-- Value equivalence up to zero sign and NaN payload: two binary32 values
are related when they are identical, both zeros, or both NaNs.  Every
operation of the noise pipeline maps related inputs to related outputs, and
the `+ 1.0` of the range remap collapses the relation to bit equality. -/
def F32.veq (a b : F32) : Prop :=
  a = b ∨ (a.isZero = true ∧ b.isZero = true) ∨ (a.isNaN = true ∧ b.isNaN = true)

lemma veq_refl (a : F32) : F32.veq a a := Or.inl rfl

lemma veq_symm {a b : F32} (h : F32.veq a b) : F32.veq b a := by
  rcases h with rfl | ⟨h1, h2⟩ | ⟨h1, h2⟩
  · exact Or.inl rfl
  · exact Or.inr (Or.inl ⟨h2, h1⟩)
  · exact Or.inr (Or.inr ⟨h2, h1⟩)

lemma isZero_parts {a : F32} (h : a.isZero = true) : a.ex = 0 ∧ a.frac = 0 := by
  unfold F32.isZero at h
  simp only [Bool.and_eq_true, beq_iff_eq] at h
  exact h

lemma isNaN_parts {a : F32} (h : a.isNaN = true) : a.ex = 255 ∧ a.frac ≠ 0 := by
  unfold F32.isNaN at h
  simp only [Bool.and_eq_true, beq_iff_eq, bne_iff_ne, ne_eq] at h
  exact h

lemma zero_not_nan {a : F32} (h : a.isZero = true) : a.isNaN = false := by
  obtain ⟨h1, _⟩ := isZero_parts h
  unfold F32.isNaN
  simp [h1]

lemma zero_not_inf {a : F32} (h : a.isZero = true) : a.isInf = false := by
  obtain ⟨h1, _⟩ := isZero_parts h
  unfold F32.isInf
  simp [h1]

lemma nan_not_zero {a : F32} (h : a.isNaN = true) : a.isZero = false := by
  obtain ⟨h1, _⟩ := isNaN_parts h
  unfold F32.isZero
  simp [h1]

lemma nan_not_inf {a : F32} (h : a.isNaN = true) : a.isInf = false := by
  obtain ⟨h1, h2⟩ := isNaN_parts h
  unfold F32.isInf
  simp [h1, h2]

lemma inf_not_nan {a : F32} (h : a.isInf = true) : a.isNaN = false := by
  unfold F32.isInf at h
  simp only [Bool.and_eq_true, beq_iff_eq] at h
  unfold F32.isNaN
  simp [h.2]

lemma veq_trans {a b c : F32} (h1 : F32.veq a b) (h2 : F32.veq b c) : F32.veq a c := by
  rcases h1 with rfl | ⟨ha, hb⟩ | ⟨ha, hb⟩
  · exact h2
  · rcases h2 with rfl | ⟨hb2, hc⟩ | ⟨hb2, hc⟩
    · exact Or.inr (Or.inl ⟨ha, hb⟩)
    · exact Or.inr (Or.inl ⟨ha, hc⟩)
    · rw [zero_not_nan hb] at hb2
      simp at hb2
  · rcases h2 with rfl | ⟨hb2, hc⟩ | ⟨hb2, hc⟩
    · exact Or.inr (Or.inr ⟨ha, hb⟩)
    · rw [nan_not_zero hb] at hb2
      simp at hb2
    · exact Or.inr (Or.inr ⟨ha, hc⟩)

lemma add_nan {a b : F32} (h : a.isNaN = true) : a + b = F32.nan := by
  show F32.add a b = F32.nan
  unfold F32.add
  simp [h]

lemma add_nan_right {a b : F32} (h : b.isNaN = true) : a + b = F32.nan := by
  show F32.add a b = F32.nan
  unfold F32.add
  simp [h]

lemma add_inf_zero {a b : F32} (ha : a.isInf = true) (hb : b.isZero = true) :
    a + b = a := by
  show F32.add a b = a
  unfold F32.add
  simp [inf_not_nan ha, zero_not_nan hb, ha, zero_not_inf hb]

lemma add_zero_inf {a b : F32} (ha : a.isZero = true) (hb : b.isInf = true) :
    a + b = b := by
  show F32.add a b = b
  unfold F32.add
  simp [zero_not_nan ha, inf_not_nan hb, zero_not_inf ha, hb]

lemma add_fin_zero {a b : F32} (h1 : a.isNaN = false) (h2 : a.isInf = false)
    (h3 : a.isZero = false) (hb : b.isZero = true) : a + b = a := by
  show F32.add a b = a
  unfold F32.add
  simp [h1, h2, h3, hb, zero_not_nan hb, zero_not_inf hb]

lemma add_zero_fin {a b : F32} (ha : a.isZero = true) (h1 : b.isNaN = false)
    (h2 : b.isInf = false) (h3 : b.isZero = false) : a + b = b := by
  show F32.add a b = b
  unfold F32.add
  simp [ha, h1, h2, h3, zero_not_nan ha, zero_not_inf ha]

lemma add_zero_zero {a b : F32} (ha : a.isZero = true) (hb : b.isZero = true) :
    (a + b).isZero = true := by
  show (F32.add a b).isZero = true
  unfold F32.add
  simp only [zero_not_nan ha, zero_not_nan hb, zero_not_inf ha, zero_not_inf hb,
    ha, hb, Bool.or_self, Bool.false_eq_true, if_false, Bool.and_self, if_true]
  split <;> rfl

/-- Adding a zero of either sign relates the result to the left operand. -/
lemma veq_add_zero (a : F32) {b : F32} (hb : b.isZero = true) : F32.veq (a + b) a := by
  by_cases hn : a.isNaN = true
  · rw [add_nan hn]
    exact Or.inr (Or.inr ⟨rfl, hn⟩)
  · rw [Bool.not_eq_true] at hn
    by_cases hi : a.isInf = true
    · rw [add_inf_zero hi hb]
      exact veq_refl a
    · rw [Bool.not_eq_true] at hi
      by_cases hz : a.isZero = true
      · exact Or.inr (Or.inl ⟨add_zero_zero hz hb, hz⟩)
      · rw [Bool.not_eq_true] at hz
        rw [add_fin_zero hn hi hz hb]
        exact veq_refl a

/-- Adding to a zero of either sign relates the result to the right operand. -/
lemma veq_zero_add {a : F32} (ha : a.isZero = true) (b : F32) : F32.veq (a + b) b := by
  by_cases hn : b.isNaN = true
  · rw [add_nan_right hn]
    exact Or.inr (Or.inr ⟨rfl, hn⟩)
  · rw [Bool.not_eq_true] at hn
    by_cases hi : b.isInf = true
    · rw [add_zero_inf ha hi]
      exact veq_refl b
    · rw [Bool.not_eq_true] at hi
      by_cases hz : b.isZero = true
      · exact Or.inr (Or.inl ⟨add_zero_zero ha hz, hz⟩)
      · rw [Bool.not_eq_true] at hz
        rw [add_zero_fin ha hn hi hz]
        exact veq_refl b

lemma veq_add {a a1 b b1 : F32} (h1 : F32.veq a a1) (h2 : F32.veq b b1) :
    F32.veq (a + b) (a1 + b1) := by
  rcases h1 with rfl | ⟨hz, hz1⟩ | ⟨hn, hn1⟩
  · rcases h2 with rfl | ⟨hw, hw1⟩ | ⟨hm, hm1⟩
    · exact veq_refl _
    · exact veq_trans (veq_add_zero a hw) (veq_symm (veq_add_zero a hw1))
    · rw [add_nan_right hm, add_nan_right hm1]
      exact veq_refl _
  · rcases h2 with rfl | ⟨hw, hw1⟩ | ⟨hm, hm1⟩
    · exact veq_trans (veq_zero_add hz b) (veq_symm (veq_zero_add hz1 b))
    · exact Or.inr (Or.inl ⟨add_zero_zero hz hw, add_zero_zero hz1 hw1⟩)
    · rw [add_nan_right hm, add_nan_right hm1]
      exact veq_refl _
  · rw [add_nan hn, add_nan hn1]
    exact veq_refl _

lemma neg_nan {a : F32} (h : a.isNaN = true) : -a = F32.nan := by
  show F32.neg a = F32.nan
  unfold F32.neg
  simp [h]

lemma neg_zero_zero {a : F32} (h : a.isZero = true) : (-a).isZero = true := by
  show (F32.neg a).isZero = true
  obtain ⟨h1, h2⟩ := isZero_parts h
  unfold F32.neg
  simp [zero_not_nan h, F32.isZero, h1, h2]

lemma veq_neg {a a1 : F32} (h : F32.veq a a1) : F32.veq (-a) (-a1) := by
  rcases h with rfl | ⟨hz, hz1⟩ | ⟨hn, hn1⟩
  · exact veq_refl _
  · exact Or.inr (Or.inl ⟨neg_zero_zero hz, neg_zero_zero hz1⟩)
  · rw [neg_nan hn, neg_nan hn1]
    exact veq_refl _

lemma veq_sub {a a1 b b1 : F32} (h1 : F32.veq a a1) (h2 : F32.veq b b1) :
    F32.veq (a - b) (a1 - b1) := veq_add h1 (veq_neg h2)

lemma mul_nan {a b : F32} (h : a.isNaN = true) : a * b = F32.nan := by
  show F32.mul a b = F32.nan
  unfold F32.mul
  simp [h]

lemma mul_nan_right {a b : F32} (h : b.isNaN = true) : a * b = F32.nan := by
  show F32.mul a b = F32.nan
  unfold F32.mul
  simp [h]

lemma mul_zero_inf {a b : F32} (ha : a.isZero = true) (hb : b.isInf = true) :
    a * b = F32.nan := by
  show F32.mul a b = F32.nan
  unfold F32.mul
  simp [zero_not_nan ha, inf_not_nan hb, ha, hb]

lemma mul_inf_zero {a b : F32} (ha : a.isInf = true) (hb : b.isZero = true) :
    a * b = F32.nan := by
  show F32.mul a b = F32.nan
  unfold F32.mul
  simp [inf_not_nan ha, zero_not_nan hb, ha, hb]

lemma mul_zero_res {a b : F32} (ha : a.isZero = true) (h1 : b.isNaN = false)
    (h2 : b.isInf = false) : (a * b).isZero = true := by
  obtain ⟨he, hf⟩ := isZero_parts ha
  show (F32.mul a b).isZero = true
  unfold F32.mul
  simp [zero_not_nan ha, h1, zero_not_inf ha, h2, he, hf, F32.isZero]

lemma mul_res_zero {a b : F32} (hb : b.isZero = true) (h1 : a.isNaN = false)
    (h2 : a.isInf = false) : (a * b).isZero = true := by
  obtain ⟨he, hf⟩ := isZero_parts hb
  show (F32.mul a b).isZero = true
  unfold F32.mul
  simp [zero_not_nan hb, h1, zero_not_inf hb, h2, he, hf, F32.isZero]

lemma veq_mul_zero (a : F32) {b b1 : F32} (hb : b.isZero = true)
    (hb1 : b1.isZero = true) : F32.veq (a * b) (a * b1) := by
  by_cases hn : a.isNaN = true
  · rw [mul_nan hn, mul_nan hn]
    exact veq_refl _
  · rw [Bool.not_eq_true] at hn
    by_cases hi : a.isInf = true
    · rw [mul_inf_zero hi hb, mul_inf_zero hi hb1]
      exact veq_refl _
    · rw [Bool.not_eq_true] at hi
      exact Or.inr (Or.inl ⟨mul_res_zero hb hn hi, mul_res_zero hb1 hn hi⟩)

lemma veq_zero_mul {a a1 : F32} (ha : a.isZero = true) (ha1 : a1.isZero = true)
    (b : F32) : F32.veq (a * b) (a1 * b) := by
  by_cases hn : b.isNaN = true
  · rw [mul_nan_right hn, mul_nan_right hn]
    exact veq_refl _
  · rw [Bool.not_eq_true] at hn
    by_cases hi : b.isInf = true
    · rw [mul_zero_inf ha hi, mul_zero_inf ha1 hi]
      exact veq_refl _
    · rw [Bool.not_eq_true] at hi
      exact Or.inr (Or.inl ⟨mul_zero_res ha hn hi, mul_zero_res ha1 hn hi⟩)

lemma veq_mul {a a1 b b1 : F32} (h1 : F32.veq a a1) (h2 : F32.veq b b1) :
    F32.veq (a * b) (a1 * b1) := by
  rcases h1 with rfl | ⟨hz, hz1⟩ | ⟨hn, hn1⟩
  · rcases h2 with rfl | ⟨hw, hw1⟩ | ⟨hm, hm1⟩
    · exact veq_refl _
    · exact veq_mul_zero a hw hw1
    · rw [mul_nan_right hm, mul_nan_right hm1]
      exact veq_refl _
  · rcases h2 with rfl | ⟨hw, hw1⟩ | ⟨hm, hm1⟩
    · exact veq_zero_mul hz hz1 b
    · exact Or.inr (Or.inl ⟨mul_zero_res hz (zero_not_nan hw) (zero_not_inf hw),
        mul_zero_res hz1 (zero_not_nan hw1) (zero_not_inf hw1)⟩)
    · rw [mul_nan_right hm, mul_nan_right hm1]
      exact veq_refl _
  · rw [mul_nan hn, mul_nan hn1]
    exact veq_refl _

lemma div_nan {a b : F32} (h : a.isNaN = true) : a / b = F32.nan := by
  show F32.div a b = F32.nan
  unfold F32.div
  simp [h]

lemma div_nan_right {a b : F32} (h : b.isNaN = true) : a / b = F32.nan := by
  show F32.div a b = F32.nan
  unfold F32.div
  simp [h]

lemma div_zero_zero {a b : F32} (ha : a.isZero = true) (hb : b.isZero = true) :
    a / b = F32.nan := by
  show F32.div a b = F32.nan
  unfold F32.div
  simp [zero_not_nan ha, zero_not_nan hb, zero_not_inf ha, zero_not_inf hb, ha, hb]

lemma div_zero_res {a b : F32} (ha : a.isZero = true) (h1 : b.isNaN = false)
    (h2 : b.isZero = false) : (a / b).isZero = true := by
  show (F32.div a b).isZero = true
  by_cases hi : b.isInf = true
  · unfold F32.div
    simp [zero_not_nan ha, h1, zero_not_inf ha, hi, F32.isZero]
  · rw [Bool.not_eq_true] at hi
    obtain ⟨he, hf⟩ := isZero_parts ha
    have hb2 : ¬(b.ex = 0 ∧ b.frac = 0) := by
      rw [F32.isZero] at h2
      simpa using h2
    unfold F32.div
    simp [zero_not_nan ha, h1, zero_not_inf ha, hi, hb2, he, hf, F32.isZero]

lemma veq_div {a a1 : F32} (b : F32) (h : F32.veq a a1) : F32.veq (a / b) (a1 / b) := by
  rcases h with rfl | ⟨hz, hz1⟩ | ⟨hn, hn1⟩
  · exact veq_refl _
  · by_cases hbn : b.isNaN = true
    · rw [div_nan_right hbn, div_nan_right hbn]
      exact veq_refl _
    · rw [Bool.not_eq_true] at hbn
      by_cases hbz : b.isZero = true
      · rw [div_zero_zero hz hbz, div_zero_zero hz1 hbz]
        exact veq_refl _
      · rw [Bool.not_eq_true] at hbz
        exact Or.inr (Or.inl ⟨div_zero_res hz hbn hbz, div_zero_res hz1 hbn hbz⟩)
  · rw [div_nan hn, div_nan hn1]
    exact veq_refl _

lemma lt_nan {a b : F32} (h : a.isNaN = true) : F32.lt a b = false := by
  unfold F32.lt
  simp [h]

lemma lt_nan_right {a b : F32} (h : b.isNaN = true) : F32.lt a b = false := by
  unfold F32.lt
  simp [h]

lemma lt_zero_zero {a b : F32} (ha : a.isZero = true) (hb : b.isZero = true) :
    F32.lt a b = false := by
  unfold F32.lt
  simp [zero_not_nan ha, zero_not_nan hb, ha, hb]

lemma lt_fin_zero {a b : F32} (h1 : a.isNaN = false) (h3 : a.isZero = false)
    (hb : b.isZero = true) : F32.lt a b = a.sign := by
  unfold F32.lt
  simp [h1, zero_not_nan hb, h3, hb]

lemma lt_zero_fin {a b : F32} (ha : a.isZero = true) (h1 : b.isNaN = false)
    (h3 : b.isZero = false) : F32.lt a b = !b.sign := by
  unfold F32.lt
  simp [zero_not_nan ha, h1, ha, h3]

lemma lt_zero_left {a a1 b : F32} (ha : a.isZero = true) (ha1 : a1.isZero = true) :
    F32.lt a b = F32.lt a1 b := by
  by_cases hn : b.isNaN = true
  · rw [lt_nan_right hn, lt_nan_right hn]
  · rw [Bool.not_eq_true] at hn
    by_cases hz : b.isZero = true
    · rw [lt_zero_zero ha hz, lt_zero_zero ha1 hz]
    · rw [Bool.not_eq_true] at hz
      rw [lt_zero_fin ha hn hz, lt_zero_fin ha1 hn hz]

lemma lt_zero_right {a b b1 : F32} (hb : b.isZero = true) (hb1 : b1.isZero = true) :
    F32.lt a b = F32.lt a b1 := by
  by_cases hn : a.isNaN = true
  · rw [lt_nan hn, lt_nan hn]
  · rw [Bool.not_eq_true] at hn
    by_cases hz : a.isZero = true
    · rw [lt_zero_zero hz hb, lt_zero_zero hz hb1]
    · rw [Bool.not_eq_true] at hz
      rw [lt_fin_zero hn hz hb, lt_fin_zero hn hz hb1]

lemma lt_congr {a a1 b b1 : F32} (h1 : F32.veq a a1) (h2 : F32.veq b b1) :
    F32.lt a b = F32.lt a1 b1 := by
  rcases h1 with rfl | ⟨hz, hz1⟩ | ⟨hn, hn1⟩
  · rcases h2 with rfl | ⟨hw, hw1⟩ | ⟨hm, hm1⟩
    · rfl
    · exact lt_zero_right hw hw1
    · rw [lt_nan_right hm, lt_nan_right hm1]
  · rcases h2 with rfl | ⟨hw, hw1⟩ | ⟨hm, hm1⟩
    · exact lt_zero_left hz hz1
    · rw [lt_zero_zero hz hw, lt_zero_zero hz1 hw1]
    · rw [lt_nan_right hm, lt_nan_right hm1]
  · rw [lt_nan hn, lt_nan hn1]

lemma eqv_nan {a b : F32} (h : a.isNaN = true) : F32.eqv a b = false := by
  unfold F32.eqv
  simp [h]

lemma eqv_nan_right {a b : F32} (h : b.isNaN = true) : F32.eqv a b = false := by
  unfold F32.eqv
  simp [h]

lemma eqv_zero_zero {a b : F32} (ha : a.isZero = true) (hb : b.isZero = true) :
    F32.eqv a b = true := by
  unfold F32.eqv
  simp [zero_not_nan ha, zero_not_nan hb, ha, hb]

lemma eqv_zero_fin {a b : F32} (ha : a.isZero = true) (h1 : b.isNaN = false)
    (h3 : b.isZero = false) : F32.eqv a b = false := by
  obtain ⟨he, hf⟩ := isZero_parts ha
  unfold F32.eqv
  rw [zero_not_nan ha, h1, ha, h3, he, hf]
  by_cases hbe : b.ex = 0
  · have hbf : b.frac ≠ 0 := by
      intro h0
      rw [F32.isZero, hbe, h0] at h3
      simp at h3
    simp [Ne.symm hbf]
  · simp [Ne.symm hbe]

lemma eqv_fin_zero {a b : F32} (h1 : a.isNaN = false) (h3 : a.isZero = false)
    (hb : b.isZero = true) : F32.eqv a b = false := by
  obtain ⟨he, hf⟩ := isZero_parts hb
  unfold F32.eqv
  rw [h1, zero_not_nan hb, hb, h3, he, hf]
  by_cases hae : a.ex = 0
  · have haf : a.frac ≠ 0 := by
      intro h0
      rw [F32.isZero, hae, h0] at h3
      simp at h3
    simp [haf]
  · simp [hae]

lemma eqv_zero_left {a a1 b : F32} (ha : a.isZero = true) (ha1 : a1.isZero = true) :
    F32.eqv a b = F32.eqv a1 b := by
  by_cases hn : b.isNaN = true
  · rw [eqv_nan_right hn, eqv_nan_right hn]
  · rw [Bool.not_eq_true] at hn
    by_cases hz : b.isZero = true
    · rw [eqv_zero_zero ha hz, eqv_zero_zero ha1 hz]
    · rw [Bool.not_eq_true] at hz
      rw [eqv_zero_fin ha hn hz, eqv_zero_fin ha1 hn hz]

lemma eqv_zero_right {a b b1 : F32} (hb : b.isZero = true) (hb1 : b1.isZero = true) :
    F32.eqv a b = F32.eqv a b1 := by
  by_cases hn : a.isNaN = true
  · rw [eqv_nan hn, eqv_nan hn]
  · rw [Bool.not_eq_true] at hn
    by_cases hz : a.isZero = true
    · rw [eqv_zero_zero hz hb, eqv_zero_zero hz hb1]
    · rw [Bool.not_eq_true] at hz
      rw [eqv_fin_zero hn hz hb, eqv_fin_zero hn hz hb1]

lemma eqv_congr {a a1 b b1 : F32} (h1 : F32.veq a a1) (h2 : F32.veq b b1) :
    F32.eqv a b = F32.eqv a1 b1 := by
  rcases h1 with rfl | ⟨hz, hz1⟩ | ⟨hn, hn1⟩
  · rcases h2 with rfl | ⟨hw, hw1⟩ | ⟨hm, hm1⟩
    · rfl
    · exact eqv_zero_right hw hw1
    · rw [eqv_nan_right hm, eqv_nan_right hm1]
  · rcases h2 with rfl | ⟨hw, hw1⟩ | ⟨hm, hm1⟩
    · exact eqv_zero_left hz hz1
    · rw [eqv_zero_zero hz hw, eqv_zero_zero hz1 hw1]
    · rw [eqv_nan_right hm, eqv_nan_right hm1]
  · rw [eqv_nan hn, eqv_nan hn1]

lemma le_congr {a a1 b b1 : F32} (h1 : F32.veq a a1) (h2 : F32.veq b b1) :
    F32.le a b = F32.le a1 b1 := by
  unfold F32.le
  rw [lt_congr h1 h2, eqv_congr h1 h2]

lemma toI32_zero {a : F32} (h : a.isZero = true) : F32.toI32 a = 0 := by
  unfold F32.toI32 F32.truncNat
  rw [zero_not_nan h, zero_not_inf h, h]
  cases a.sign <;> simp

lemma toI32_nan {a : F32} (h : a.isNaN = true) : F32.toI32 a = 0 := by
  unfold F32.toI32
  simp [h]

lemma fast_floor_congr {a a1 : F32} (h : F32.veq a a1) :
    SimplexGen.fast_floor a = SimplexGen.fast_floor a1 := by
  rcases h with rfl | ⟨hz, hz1⟩ | ⟨hn, hn1⟩
  · rfl
  · unfold SimplexGen.fast_floor
    rw [lt_zero_zero (by decide) hz, lt_zero_zero (by decide) hz1,
      toI32_zero hz, toI32_zero hz1]
  · unfold SimplexGen.fast_floor
    rw [lt_nan_right hn, lt_nan_right hn1, toI32_nan hn, toI32_nan hn1]

/-- Adding `1.0` collapses the value equivalence to bit equality. -/
lemma veq_add_one {q q1 : F32} (h : F32.veq q q1) : q + 1.0 = q1 + 1.0 := by
  rcases h with rfl | ⟨hz, hz1⟩ | ⟨hn, hn1⟩
  · rfl
  · rw [add_zero_fin hz (by decide) (by decide) (by decide),
      add_zero_fin hz1 (by decide) (by decide) (by decide)]
  · rw [add_nan hn, add_nan hn1]

lemma gradient_2d_congr (hash : Nat) {x x1 y y1 : F32} (hx : F32.veq x x1)
    (hy : F32.veq y y1) :
    F32.veq (SimplexGen.gradient_2d hash x y) (SimplexGen.gradient_2d hash x1 y1) := by
  unfold SimplexGen.gradient_2d
  dsimp only
  split_ifs <;>
    first
      | exact veq_add hx (veq_mul (veq_refl _) hy)
      | exact veq_add hy (veq_mul (veq_refl _) hx)
      | exact veq_add (veq_mul hx (veq_refl _)) (veq_mul (veq_refl _) hy)
      | exact veq_add (veq_mul hy (veq_refl _)) (veq_mul (veq_refl _) hx)

/-- The 2D kernel maps veq-related inputs to veq-related outputs: the cell
and corner indices agree exactly (a zero of either sign and any NaN floor to
the same cell), and every floating-point intermediate stays veq-related. -/
lemma simplex2d_congr (perm : List Nat) {x xp y yp : F32} (hx : F32.veq x xp)
    (hy : F32.veq y yp) :
    F32.veq (SimplexGen.simplex2d x y perm) (SimplexGen.simplex2d xp yp perm) := by
  unfold SimplexGen.simplex2d
  dsimp only
  have hs : F32.veq ((x + y) * SimplexGen.F2) ((xp + yp) * SimplexGen.F2) :=
    veq_mul (veq_add hx hy) (veq_refl _)
  generalize hSa : (x + y) * SimplexGen.F2 = S at hs ⊢
  generalize hSb : (xp + yp) * SimplexGen.F2 = Sp at hs ⊢
  have hi : SimplexGen.fast_floor (x + S) = SimplexGen.fast_floor (xp + Sp) :=
    fast_floor_congr (veq_add hx hs)
  have hj : SimplexGen.fast_floor (y + S) = SimplexGen.fast_floor (yp + Sp) :=
    fast_floor_congr (veq_add hy hs)
  rw [← hi, ← hj]
  generalize hIa : SimplexGen.fast_floor (x + S) = I
  generalize hJa : SimplexGen.fast_floor (y + S) = J
  generalize hTa : F32.ofInt (wrap32 (I + J)) * SimplexGen.G2 = T
  generalize hXAa : F32.ofInt I - T = XA
  generalize hYAa : F32.ofInt J - T = YA
  have hx0 : F32.veq (x - XA) (xp - XA) := veq_sub hx (veq_refl _)
  have hy0 : F32.veq (y - YA) (yp - YA) := veq_sub hy (veq_refl _)
  generalize hX0a : x - XA = X0 at hx0 ⊢
  generalize hX0b : xp - XA = Xp at hx0 ⊢
  generalize hY0a : y - YA = Y0 at hy0 ⊢
  generalize hY0b : yp - YA = Yp at hy0 ⊢
  have hc : F32.lt Y0 X0 = F32.lt Yp Xp := lt_congr hy0 hx0
  rw [← hc]
  generalize hI1a : (if F32.lt Y0 X0 then (1 : Nat) else 0) = I1
  generalize hJ1a : (if F32.lt Y0 X0 then (0 : Nat) else 1) = J1
  generalize hIIa : SimplexGen.modulo I 256 = II
  generalize hJJa : SimplexGen.modulo J 256 = JJ
  have hx1 : F32.veq (X0 - F32.ofNat I1 + SimplexGen.G2)
      (Xp - F32.ofNat I1 + SimplexGen.G2) :=
    veq_add (veq_sub hx0 (veq_refl _)) (veq_refl _)
  have hy1 : F32.veq (Y0 - F32.ofNat J1 + SimplexGen.G2)
      (Yp - F32.ofNat J1 + SimplexGen.G2) :=
    veq_add (veq_sub hy0 (veq_refl _)) (veq_refl _)
  have hx2 : F32.veq (X0 - 1.0 + 2.0 * SimplexGen.G2)
      (Xp - 1.0 + 2.0 * SimplexGen.G2) :=
    veq_add (veq_sub hx0 (veq_refl _)) (veq_refl _)
  have hy2 : F32.veq (Y0 - 1.0 + 2.0 * SimplexGen.G2)
      (Yp - 1.0 + 2.0 * SimplexGen.G2) :=
    veq_add (veq_sub hy0 (veq_refl _)) (veq_refl _)
  generalize hX1a : X0 - F32.ofNat I1 + SimplexGen.G2 = X1 at hx1 ⊢
  generalize hX1b : Xp - F32.ofNat I1 + SimplexGen.G2 = Xq at hx1 ⊢
  generalize hY1a : Y0 - F32.ofNat J1 + SimplexGen.G2 = Y1 at hy1 ⊢
  generalize hY1b : Yp - F32.ofNat J1 + SimplexGen.G2 = Yq at hy1 ⊢
  generalize hX2a : X0 - 1.0 + 2.0 * SimplexGen.G2 = X2 at hx2 ⊢
  generalize hX2b : Xp - 1.0 + 2.0 * SimplexGen.G2 = Xr at hx2 ⊢
  generalize hY2a : Y0 - 1.0 + 2.0 * SimplexGen.G2 = Y2 at hy2 ⊢
  generalize hY2b : Yp - 1.0 + 2.0 * SimplexGen.G2 = Yr at hy2 ⊢
  have ht0 : F32.veq (0.5 - X0 * X0 - Y0 * Y0) (0.5 - Xp * Xp - Yp * Yp) :=
    veq_sub (veq_sub (veq_refl _) (veq_mul hx0 hx0)) (veq_mul hy0 hy0)
  have hc0 : F32.le 0.0 (0.5 - X0 * X0 - Y0 * Y0) =
      F32.le 0.0 (0.5 - Xp * Xp - Yp * Yp) :=
    le_congr (veq_refl _) ht0
  rw [← hc0]
  generalize hT0a : (0.5 : F32) - X0 * X0 - Y0 * Y0 = T0 at ht0 ⊢
  generalize hT0b : (0.5 : F32) - Xp * Xp - Yp * Yp = Tp at ht0 ⊢
  have ht1 : F32.veq (0.5 - X1 * X1 - Y1 * Y1) (0.5 - Xq * Xq - Yq * Yq) :=
    veq_sub (veq_sub (veq_refl _) (veq_mul hx1 hx1)) (veq_mul hy1 hy1)
  have hc1 : F32.le 0.0 (0.5 - X1 * X1 - Y1 * Y1) =
      F32.le 0.0 (0.5 - Xq * Xq - Yq * Yq) :=
    le_congr (veq_refl _) ht1
  rw [← hc1]
  generalize hT1a : (0.5 : F32) - X1 * X1 - Y1 * Y1 = T1 at ht1 ⊢
  generalize hT1b : (0.5 : F32) - Xq * Xq - Yq * Yq = Tq at ht1 ⊢
  have ht2 : F32.veq (0.5 - X2 * X2 - Y2 * Y2) (0.5 - Xr * Xr - Yr * Yr) :=
    veq_sub (veq_sub (veq_refl _) (veq_mul hx2 hx2)) (veq_mul hy2 hy2)
  have hc2 : F32.le 0.0 (0.5 - X2 * X2 - Y2 * Y2) =
      F32.le 0.0 (0.5 - Xr * Xr - Yr * Yr) :=
    le_congr (veq_refl _) ht2
  rw [← hc2]
  generalize hT2a : (0.5 : F32) - X2 * X2 - Y2 * Y2 = T2 at ht2 ⊢
  generalize hT2b : (0.5 : F32) - Xr * Xr - Yr * Yr = Tr at ht2 ⊢
  generalize hH0a : perm.getD (II + perm.getD JJ 0) 0 = H0
  generalize hH1a : perm.getD (II + I1 + perm.getD (JJ + J1) 0) 0 = H1
  generalize hH2a : perm.getD (II + 1 + perm.getD (JJ + 1) 0) 0 = H2
  refine veq_mul (veq_refl _) ?_
  have hN0 : F32.veq
      (if F32.le 0.0 T0 then
        (0.0 : F32) + T0 * T0 * (T0 * T0) * SimplexGen.gradient_2d H0 X0 Y0
      else (0.0 : F32))
      (if F32.le 0.0 T0 then
        (0.0 : F32) + Tp * Tp * (Tp * Tp) * SimplexGen.gradient_2d H0 Xp Yp
      else (0.0 : F32)) := by
    split
    · exact veq_add (veq_refl _)
        (veq_mul (veq_mul (veq_mul ht0 ht0) (veq_mul ht0 ht0))
          (gradient_2d_congr H0 hx0 hy0))
    · exact veq_refl _
  generalize hN0a : (if F32.le 0.0 T0 then
      (0.0 : F32) + T0 * T0 * (T0 * T0) * SimplexGen.gradient_2d H0 X0 Y0
    else (0.0 : F32)) = N0 at hN0 ⊢
  generalize hN0b : (if F32.le 0.0 T0 then
      (0.0 : F32) + Tp * Tp * (Tp * Tp) * SimplexGen.gradient_2d H0 Xp Yp
    else (0.0 : F32)) = Np at hN0 ⊢
  have hN1 : F32.veq
      (if F32.le 0.0 T1 then
        N0 + T1 * T1 * (T1 * T1) * SimplexGen.gradient_2d H1 X1 Y1
      else N0)
      (if F32.le 0.0 T1 then
        Np + Tq * Tq * (Tq * Tq) * SimplexGen.gradient_2d H1 Xq Yq
      else Np) := by
    split
    · exact veq_add hN0
        (veq_mul (veq_mul (veq_mul ht1 ht1) (veq_mul ht1 ht1))
          (gradient_2d_congr H1 hx1 hy1))
    · exact hN0
  generalize hN1a : (if F32.le 0.0 T1 then
      N0 + T1 * T1 * (T1 * T1) * SimplexGen.gradient_2d H1 X1 Y1
    else N0) = N1 at hN1 ⊢
  generalize hN1b : (if F32.le 0.0 T1 then
      Np + Tq * Tq * (Tq * Tq) * SimplexGen.gradient_2d H1 Xq Yq
    else Np) = Nq at hN1 ⊢
  split
  · exact veq_add hN1
      (veq_mul (veq_mul (veq_mul ht2 ht2) (veq_mul ht2 ht2))
        (gradient_2d_congr H2 hx2 hy2))
  · exact hN1

/-- The fBm loop of `Simplex::generate2D` preserves the value equivalence on
the output accumulator and computes identical denominators. -/
lemma fbm2Loop_veq (perm : List Nat) (lac pers : F32) {x xp y yp : F32}
    (hx : F32.veq x xp) (hy : F32.veq y yp) :
    ∀ (n : Nat) (out outp den xf yf amp : F32), F32.veq out outp →
      F32.veq (Simplex.fbm2Loop perm lac pers x y n out den xf yf amp).1
          (Simplex.fbm2Loop perm lac pers xp yp n outp den xf yf amp).1 ∧
        (Simplex.fbm2Loop perm lac pers x y n out den xf yf amp).2 =
          (Simplex.fbm2Loop perm lac pers xp yp n outp den xf yf amp).2 := by
  intro n
  induction n with
  | zero =>
    intro out outp den xf yf amp hout
    exact ⟨hout, rfl⟩
  | succ k ih =>
    intro out outp den xf yf amp hout
    rw [Simplex.fbm2Loop, Simplex.fbm2Loop]
    exact ih _ _ _ _ _ _
      (veq_add hout (veq_mul (veq_refl _)
        (simplex2d_congr perm (veq_mul hx (veq_refl _)) (veq_mul hy (veq_refl _)))))

/-- `Simplex::generate2D` is bit-insensitive to the sign of zero coordinates
and to NaN payloads: veq-related inputs give bit-identical outputs (the
`+ 1.0` of the range remap collapses the residual zero-sign difference). -/
lemma generate2D_congr (g : Simplex) {x xp y yp : F32} (hx : F32.veq x xp)
    (hy : F32.veq y yp) : g.generate2D x y = g.generate2D xp yp := by
  unfold Simplex.generate2D
  dsimp only
  obtain ⟨h1, h2⟩ := fbm2Loop_veq g.perm g.lacunarity g.persistence hx hy g.octaves
    0.0 0.0 0.0 g.x_frequency g.y_frequency 1.0 (veq_refl _)
  rw [h2, veq_add_one (veq_div _ h1)]

/-- C4 (amended): with all six warp offsets zero and weight zero,
DomainWarp::generate2D(x,y) equals simplex3.generate2D(x,y) bit-identically
for EVERY coordinate pair (x,y) — including signed zeros and NaNs — PROVIDED
the intermediate samples qx, qy and the shared rx/ry sample are finite; a
non-finite intermediate sample (for example a second generator with
octaves = 0) makes the final coordinates NaN and breaks the equality. -/
theorem claim_c4_zero_weight_identity (W : DomainWarp) (x y : F32)
    (hoffs : ∀ i : Fin 6, W.warps i = F32.pzero)
    (hw : W.weight = F32.pzero)
    (hqx : (W.simplex1.generate2D x y).isFinite = true)
    (hqy : (W.simplex1.generate2D y x).isFinite = true)
    (hr : (W.simplex2.generate2D x y).isFinite = true) :
    W.generate2D x y = W.simplex3.generate2D x y := by
  show domain_warp2d W x y = _
  unfold domain_warp2d
  dsimp only
  simp only [hoffs, hw]
  have hpz : F32.pzero.isZero = true := rfl
  rw [generate2D_congr W.simplex1 (veq_add_zero y hpz) (veq_add_zero x hpz)]
  rw [generate2D_congr W.simplex2
    (veq_trans (veq_add_zero _ hpz) (veq_add_zero x (mul_zero_finite _ _ hpz hqx)))
    (veq_trans (veq_add_zero _ hpz) (veq_add_zero y (mul_zero_finite _ _ hpz hqy)))]
  exact generate2D_congr W.simplex3
    (veq_add_zero x (mul_zero_finite _ _ hpz hr))
    (veq_add_zero y (mul_zero_finite _ _ hpz hr))

/-- Counterexample to C4 as stated: a domain warp with all offsets zero and
weight zero whose second generator has zero octaves (so rx and ry are NaN)
does NOT reproduce simplex3.generate2D. -/
theorem claim_c4_counterexample :
    (∀ i : Fin 6, warpBad.warps i = F32.pzero) ∧ warpBad.weight = F32.pzero ∧
      warpBad.generate2D 0.5 0.25 ≠ warpBad.simplex3.generate2D 0.5 0.25 := by
  refine ⟨fun i => rfl, rfl, by decide⟩

/-- Witness for the amended C4 at a healthy concrete warp, at a negative-zero
x coordinate (there x + 0.0 flips the zero sign, yet the identity holds
bit-for-bit). -/
theorem claim_c4_witness :
    warpGood.generate2D (-0.0) 0.25 = warpGood.simplex3.generate2D (-0.0) 0.25 :=
  claim_c4_zero_weight_identity warpGood (-0.0) 0.25 (fun i => rfl) rfl
    (by decide) (by decide) (by decide)

end Denali

namespace Denali

lemma pzero_isNaN : F32.pzero.isNaN = false := rfl

lemma pzero_isZero : F32.pzero.isZero = true := rfl

lemma lt_pzero_elim {x : F32} (h : F32.lt F32.pzero x = true) :
    x.isNaN = false ∧ x.isZero = false ∧ x.sign = false := by
  unfold F32.lt at h
  simp only [pzero_isNaN, pzero_isZero, Bool.false_or, Bool.true_and] at h
  cases hn : x.isNaN with
  | true => rw [hn] at h; simp at h
  | false =>
  rw [hn] at h
  cases hz : x.isZero with
  | true => rw [hz] at h; simp at h
  | false =>
  rw [hz] at h
  simp only [Bool.false_eq_true, if_false] at h
  exact ⟨rfl, rfl, by simpa using h⟩

lemma le_pzero_elim {x : F32} (h : F32.le x F32.pzero = true) :
    x.isNaN = false ∧ (x.isZero = true ∨ x.sign = true) := by
  unfold F32.le F32.lt F32.eqv at h
  simp only [pzero_isNaN, pzero_isZero, Bool.or_false, Bool.and_true] at h
  cases hn : x.isNaN with
  | true => rw [hn] at h; simp at h
  | false =>
  rw [hn] at h
  refine ⟨rfl, ?_⟩
  cases hz : x.isZero with
  | true => exact Or.inl rfl
  | false =>
  rw [hz] at h
  cases hs : x.sign with
  | true => exact Or.inr rfl
  | false =>
  exfalso
  rw [hs] at h
  simp [F32.pzero] at h
  unfold F32.isZero at hz
  simp [h.1, h.2] at hz

lemma le_pzero_not_lt {x : F32} (h : F32.le x F32.pzero = true) :
    F32.lt F32.pzero x = false := by
  obtain ⟨hn, hor⟩ := le_pzero_elim h
  unfold F32.lt
  simp only [pzero_isNaN, pzero_isZero, Bool.false_or, Bool.true_and]
  rw [hn]
  rcases hor with hz | hs
  · rw [hz]; simp
  · cases hz : x.isZero with
    | true => simp
    | false => simp [hs]

lemma toI32_of_finite {x : F32} (hfin : x.isFinite = true) :
    F32.toI32 x = max (-2147483648) (min 2147483647
      (if x.sign then -(F32.truncNat x : Int) else (F32.truncNat x : Int))) := by
  unfold F32.toI32
  simp [fin_not_nan hfin, fin_not_inf hfin]

lemma truncI_elim {x : F32} {t : Int} (htr : F32.truncI x = some t) :
    x.isFinite = true ∧
      t = (if x.sign then -(F32.truncNat x : Int) else (F32.truncNat x : Int)) := by
  unfold F32.truncI at htr
  by_cases hf : x.isFinite = true
  · refine ⟨hf, ?_⟩
    rw [if_pos hf] at htr
    exact (Option.some.injEq _ _ ▸ htr).symm
  · rw [if_neg hf] at htr
    simp at htr

lemma wrap32_small {i : Int} (h1 : -2147483648 ≤ i) (h2 : i < 2147483648) :
    wrap32 i = i := by
  unfold wrap32
  omega

/-- C10 (amended): fast_floor is the saturating i32 cast for x > 0.0 (so it
equals truncation toward zero whenever that truncation fits in i32), and the
saturating cast minus one, with wrap-around at i32::MIN, for x <= 0.0 (so it
equals truncation minus one whenever the truncation lies strictly above
-2^31); in particular fast_floor(0.0) = -1 and fast_floor(-2.0) = -3, for
both copies of the function. -/
theorem claim_c10_fast_floor :
    (∀ (x : F32) (t : Int), F32.lt 0.0 x = true → F32.truncI x = some t →
      t ≤ 2147483647 →
      SimplexGen.fast_floor x = t ∧ LibGen.fast_floor x = t) ∧
    (∀ (x : F32) (t : Int), F32.le x 0.0 = true → F32.truncI x = some t →
      -2147483648 < t →
      SimplexGen.fast_floor x = t - 1 ∧ LibGen.fast_floor x = t - 1) ∧
    SimplexGen.fast_floor 0.0 = -1 ∧ SimplexGen.fast_floor (-2.0) = -3 ∧
    LibGen.fast_floor 0.0 = -1 ∧ LibGen.fast_floor (-2.0) = -3 := by
  have h00 : (0.0 : F32) = F32.pzero := rfl
  refine ⟨?_, ?_, by decide, by decide, by decide, by decide⟩
  · intro x t hlt htr hub
    rw [h00] at hlt
    obtain ⟨hn, hz, hs⟩ := lt_pzero_elim hlt
    obtain ⟨hfin, ht⟩ := truncI_elim htr
    have hti : F32.toI32 x = t := by
      rw [toI32_of_finite hfin, ← ht]
      rw [hs] at ht
      simp only [if_neg (by simp : ¬false = true)] at ht
      omega
    have hs1 : SimplexGen.fast_floor x = t := by
      unfold SimplexGen.fast_floor
      rw [h00, if_pos hlt, hti]
    exact ⟨hs1, hs1⟩
  · intro x t hle htr hlb
    rw [h00] at hle
    have hlt0 := le_pzero_not_lt hle
    obtain ⟨hn, hor⟩ := le_pzero_elim hle
    obtain ⟨hfin, ht⟩ := truncI_elim htr
    have htle : t ≤ 0 := by
      rcases hor with hz | hs
      · have h0 : F32.truncNat x = 0 := by unfold F32.truncNat; simp [hz]
        rw [ht, h0]
        cases x.sign <;> simp
      · rw [ht, if_pos hs]
        omega
    have hti : F32.toI32 x = t := by
      rw [toI32_of_finite hfin, ← ht]
      omega
    have hs1 : SimplexGen.fast_floor x = t - 1 := by
      unfold SimplexGen.fast_floor
      rw [h00, if_neg (by simp [hlt0]), hti, wrap32_small (by omega) (by omega)]
    exact ⟨hs1, hs1⟩

/-- Counterexample to C10 as stated: at x = 2^31 (exactly representable,
positive) fast_floor saturates to 2^31 - 1 instead of the truncation 2^31,
and at x = -2^31 the subtraction by one wraps around instead of producing
-2^31 - 1. -/
theorem claim_c10_counterexample :
    (F32.lt 0.0 (2147483648.0 : F32) = true ∧
      F32.truncI (2147483648.0 : F32) = some 2147483648 ∧
      SimplexGen.fast_floor (2147483648.0 : F32) ≠ 2147483648) ∧
    (F32.le (-2147483648.0 : F32) 0.0 = true ∧
      F32.truncI (-2147483648.0 : F32) = some (-2147483648) ∧
      SimplexGen.fast_floor (-2147483648.0 : F32) ≠ -2147483648 - 1) := by
  decide

/-- Witness for the amended C10 at concrete in-range inputs. -/
theorem claim_c10_witness :
    SimplexGen.fast_floor 3.5 = 3 ∧ SimplexGen.fast_floor (-2.5) = -3 := by
  refine ⟨(claim_c10_fast_floor.1 3.5 3 (by decide) (by decide) (by decide)).1, ?_⟩
  have h := (claim_c10_fast_floor.2.1 (-2.5) (-2) (by decide) (by decide) (by decide)).1
  simpa using h

end Denali

namespace Denali

namespace SimplexGen

/-- Lookup-checked variant of `simplex1d`: every permutation-table access
goes through the bounds-checked `perm[i]?`. -/
def simplex1dChk (x : F32) (perm : List Nat) : Option F32 := do
  let i0 := fast_floor x
  let i1 := wrap32 (i0 + 1)
  let x0 := x - F32.ofInt i0
  let x1 := x0 - 1.0
  let n : F32 := 0.0
  let t : F32 := 1.0 - x0 * x0
  let t := t * t
  let h0 ← perm[(Int.emod i0 256).toNat]?
  let n := n + t * t * gradient_1d h0 x0
  let t : F32 := 1.0 - x1 * x1
  let t := t * t
  let h1 ← perm[(Int.emod i1 256).toNat]?
  let n := n + t * t * gradient_1d h1 x1
  pure (0.395 * n)

/-- Lookup-checked variant of `simplex2d`. -/
def simplex2dChk (x y : F32) (perm : List Nat) : Option F32 := do
  let s := (x + y) * F2
  let xs := x + s
  let ys := y + s
  let i := fast_floor xs
  let j := fast_floor ys
  let t : F32 := F32.ofInt (wrap32 (i + j)) * G2
  let x_0 := F32.ofInt i - t
  let y_0 := F32.ofInt j - t
  let x_0 := x - x_0
  let y_0 := y - y_0
  let i1 : Nat := if F32.lt y_0 x_0 then 1 else 0
  let j1 : Nat := if F32.lt y_0 x_0 then 0 else 1
  let x1 := x_0 - F32.ofNat i1 + G2
  let y1 := y_0 - F32.ofNat j1 + G2
  let x2 := x_0 - 1.0 + 2.0 * G2
  let y2 := y_0 - 1.0 + 2.0 * G2
  let ii := modulo i 256
  let jj := modulo j 256
  let n : F32 := 0.0
  let t0 : F32 := 0.5 - x_0 * x_0 - y_0 * y_0
  let n ← (if F32.le 0.0 t0 then do
      let t0 := t0 * t0
      let inner ← perm[jj]?
      let h ← perm[ii + inner]?
      pure (n + t0 * t0 * gradient_2d h x_0 y_0)
    else pure n)
  let t1 : F32 := 0.5 - x1 * x1 - y1 * y1
  let n ← (if F32.le 0.0 t1 then do
      let t1 := t1 * t1
      let inner ← perm[jj + j1]?
      let h ← perm[ii + i1 + inner]?
      pure (n + t1 * t1 * gradient_2d h x1 y1)
    else pure n)
  let t2 : F32 := 0.5 - x2 * x2 - y2 * y2
  let n ← (if F32.le 0.0 t2 then do
      let t2 := t2 * t2
      let inner ← perm[jj + 1]?
      let h ← perm[ii + 1 + inner]?
      pure (n + t2 * t2 * gradient_2d h x2 y2)
    else pure n)
  pure (40.0 * n)

/-- Lookup-checked variant of `simplex3d`. -/
def simplex3dChk (x y z : F32) (perm : List Nat) : Option F32 := do
  let s := (x + y + z) * F3
  let i := fast_floor (x + s)
  let j := fast_floor (y + s)
  let k := fast_floor (z + s)
  let t : F32 := F32.ofInt (wrap32 (wrap32 (i + j) + k)) * G3
  let x0 := x - (F32.ofInt i - t)
  let y0 := y - (F32.ofInt j - t)
  let z0 := z - (F32.ofInt k - t)
  let c := corners3 x0 y0 z0
  let i1 := c.1
  let j1 := c.2.1
  let k1 := c.2.2.1
  let i2 := c.2.2.2.1
  let j2 := c.2.2.2.2.1
  let k2 := c.2.2.2.2.2
  let x1 := x0 - F32.ofNat i1 + G3
  let y1 := y0 - F32.ofNat j1 + G3
  let z1 := z0 - F32.ofNat k1 + G3
  let x2 := x0 - F32.ofNat i2 + 2.0 * G3
  let y2 := y0 - F32.ofNat j2 + 2.0 * G3
  let z2 := z0 - F32.ofNat k2 + 2.0 * G3
  let x3 := x0 - 1.0 + 3.0 * G3
  let y3 := y0 - 1.0 + 3.0 * G3
  let z3 := z0 - 1.0 + 3.0 * G3
  let ii := modulo i 256
  let jj := modulo j 256
  let kk := modulo k 256
  let n : F32 := 0.0
  let t0 : F32 := 0.6 - x0 * x0 - y0 * y0 - z0 * z0
  let n ← (if F32.le 0.0 t0 then do
      let t0 := t0 * t0
      let inner1 ← perm[kk]?
      let inner2 ← perm[jj + inner1]?
      let h ← perm[ii + inner2]?
      pure (n + t0 * t0 * gradient_3d h x0 y0 z0)
    else pure n)
  let t1 : F32 := 0.6 - x1 * x1 - y1 * y1 - z1 * z1
  let n ← (if F32.le 0.0 t1 then do
      let t1 := t1 * t1
      let inner1 ← perm[kk + k1]?
      let inner2 ← perm[jj + j1 + inner1]?
      let h ← perm[ii + i1 + inner2]?
      pure (n + t1 * t1 * gradient_3d h x1 y1 z1)
    else pure n)
  let t2 : F32 := 0.6 - x2 * x2 - y2 * y2 - z2 * z2
  let n ← (if F32.le 0.0 t2 then do
      let t2 := t2 * t2
      let inner1 ← perm[kk + k2]?
      let inner2 ← perm[jj + j2 + inner1]?
      let h ← perm[ii + i2 + inner2]?
      pure (n + t2 * t2 * gradient_3d h x2 y2 z2)
    else pure n)
  let t3 : F32 := 0.6 - x3 * x3 - y3 * y3 - z3 * z3
  let n ← (if F32.le 0.0 t3 then do
      let t3 := t3 * t3
      let inner1 ← perm[kk + 1]?
      let inner2 ← perm[jj + 1 + inner1]?
      let h ← perm[ii + 1 + inner2]?
      pure (n + t3 * t3 * gradient_3d h x3 y3 z3)
    else pure n)
  pure (32.0 * n)

end SimplexGen

lemma emod256_toNat_lt (i : Int) : (Int.emod i 256).toNat < 512 := by
  have h1 : Int.emod i 256 < 256 := Int.emod_lt_of_pos _ (by norm_num)
  have h2 : 0 ≤ Int.emod i 256 := Int.emod_nonneg _ (by norm_num)
  omega

lemma lookup_sound (perm : List Nat) (hlen : perm.length = 512) (i : Nat)
    (hi : i < 512) : perm[i]? = some (perm.getD i 0) := by
  have h : i < perm.length := by omega
  rw [List.getElem?_eq_getElem h, List.getD_eq_getElem perm 0 h]

lemma getD_val_lt (perm : List Nat) (hval : ∀ v ∈ perm, v < 256) (i : Nat) :
    perm.getD i 0 < 256 := by
  by_cases h : i < perm.length
  · rw [List.getD_eq_getElem perm 0 h]
    exact hval _ (List.getElem_mem h)
  · rw [List.getD_eq_getElem?_getD, List.getElem?_eq_none (by omega)]
    simp

lemma modulo_lt_256 (x : Int) : SimplexGen.modulo x 256 < 256 := by
  have hb : Int.tmod x 256 < 256 ∧ -256 < Int.tmod x 256 := by
    cases x with
    | ofNat m => simp [Int.tmod]; omega
    | negSucc m => simp [Int.tmod]; omega
  simp only [SimplexGen.modulo]
  split <;> omega

lemma modulo_le_256 (x : Int) : SimplexGen.modulo x 256 ≤ 256 :=
  Nat.le_of_lt (modulo_lt_256 x)

lemma modulo_lt_512 (x : Int) : SimplexGen.modulo x 256 < 512 := by
  have := modulo_lt_256 x
  omega

lemma modulo_add_le_256 (x : Int) (w : Nat) (hw : w ≤ 1) :
    SimplexGen.modulo x 256 + w ≤ 256 := by
  have := modulo_lt_256 x
  omega

lemma modulo_add_lt_512 (x : Int) (w : Nat) (hw : w ≤ 1) :
    SimplexGen.modulo x 256 + w < 512 := by
  have := modulo_lt_256 x
  omega

lemma ite_nat_le_one (c : Prop) [Decidable c] (m n : Nat) (hm : m ≤ 1) (hn : n ≤ 1) :
    (if c then m else n) ≤ 1 := by
  split <;> omega

lemma corners3_le (x0 y0 z0 : F32) :
    (SimplexGen.corners3 x0 y0 z0).1 ≤ 1 ∧
    (SimplexGen.corners3 x0 y0 z0).2.1 ≤ 1 ∧
    (SimplexGen.corners3 x0 y0 z0).2.2.1 ≤ 1 ∧
    (SimplexGen.corners3 x0 y0 z0).2.2.2.1 ≤ 1 ∧
    (SimplexGen.corners3 x0 y0 z0).2.2.2.2.1 ≤ 1 ∧
    (SimplexGen.corners3 x0 y0 z0).2.2.2.2.2 ≤ 1 := by
  unfold SimplexGen.corners3
  split_ifs <;> simp

lemma bind_pure_f32 (a : F32) (f : F32 → Option F32) : (pure a >>= f) = f a := rfl

lemma ite_pure_f32 (c : Prop) [Decidable c] (a b : F32) :
    (if c then (pure a : Option F32) else pure b) = pure (if c then a else b) :=
  (apply_ite _ c a b).symm

lemma lookup2_sound (perm : List Nat) (hlen : perm.length = 512)
    (hval : ∀ v ∈ perm, v < 256) (a b : Nat) (ha : a ≤ 256) (hb : b < 512)
    (f : Nat → Option F32) :
    (do let inner ← perm[b]?; let h ← perm[a + inner]?; f h)
      = f (perm.getD (a + perm.getD b 0) 0) := by
  rw [lookup_sound perm hlen b hb]
  show (do let h ← perm[a + perm.getD b 0]?; f h) = _
  rw [lookup_sound perm hlen _ (by have := getD_val_lt perm hval b; omega)]
  rfl

lemma lookup3_sound (perm : List Nat) (hlen : perm.length = 512)
    (hval : ∀ v ∈ perm, v < 256) (a b c : Nat) (ha : a ≤ 256) (hb : b ≤ 256)
    (hc : c < 512) (f : Nat → Option F32) :
    (do let inner1 ← perm[c]?
        let inner2 ← perm[b + inner1]?
        let h ← perm[a + inner2]?
        f h)
      = f (perm.getD (a + perm.getD (b + perm.getD c 0) 0) 0) := by
  rw [lookup_sound perm hlen c hc]
  show (do let inner2 ← perm[b + perm.getD c 0]?; let h ← perm[a + inner2]?; f h) = _
  rw [lookup_sound perm hlen _ (by have := getD_val_lt perm hval c; omega)]
  show (do let h ← perm[a + perm.getD (b + perm.getD c 0) 0]?; f h) = _
  rw [lookup_sound perm hlen _
    (by have := getD_val_lt perm hval (b + perm.getD c 0); omega)]
  rfl

/-- C8: over any well-formed 512-entry byte table, every permutation-table
index computed inside simplex1d, simplex2d and simplex3d is in bounds for
EVERY f32 input: the bounds-checked variants of the three kernels always
succeed and agree with the unchecked kernels. -/
theorem claim_c8_index_safety (perm : List Nat) (hlen : perm.length = 512)
    (hval : ∀ v ∈ perm, v < 256) :
    (∀ x : F32, SimplexGen.simplex1dChk x perm = some (SimplexGen.simplex1d x perm)) ∧
    (∀ x y : F32, SimplexGen.simplex2dChk x y perm = some (SimplexGen.simplex2d x y perm)) ∧
    (∀ x y z : F32,
      SimplexGen.simplex3dChk x y z perm = some (SimplexGen.simplex3d x y z perm)) := by
  refine ⟨?_, ?_, ?_⟩
  · intro x
    unfold SimplexGen.simplex1dChk SimplexGen.simplex1d
    dsimp only
    rw [lookup_sound perm hlen _ (emod256_toNat_lt _), lookup_sound perm hlen _ (emod256_toNat_lt _)]
    rfl
  · intro x y
    unfold SimplexGen.simplex2dChk SimplexGen.simplex2d
    dsimp only
    rw [lookup2_sound perm hlen hval _ _ (modulo_le_256 _) (modulo_lt_512 _),
      ite_pure_f32]
    simp only [bind_pure_f32]
    rw [lookup2_sound perm hlen hval _ _
        (modulo_add_le_256 _ _ (ite_nat_le_one _ _ _ (by omega) (by omega)))
        (modulo_add_lt_512 _ _ (ite_nat_le_one _ _ _ (by omega) (by omega))),
      ite_pure_f32]
    simp only [bind_pure_f32]
    rw [lookup2_sound perm hlen hval _ _
        (modulo_add_le_256 _ 1 (by omega)) (modulo_add_lt_512 _ 1 (by omega)),
      ite_pure_f32]
    simp only [bind_pure_f32]
    rfl
  · intro x y z
    unfold SimplexGen.simplex3dChk SimplexGen.simplex3d
    dsimp only
    rw [lookup3_sound perm hlen hval _ _ _ (modulo_le_256 _) (modulo_le_256 _)
        (modulo_lt_512 _),
      ite_pure_f32]
    simp only [bind_pure_f32]
    rw [lookup3_sound perm hlen hval _ _ _
        (modulo_add_le_256 _ _ ((corners3_le _ _ _).1))
        (modulo_add_le_256 _ _ ((corners3_le _ _ _).2.1))
        (modulo_add_lt_512 _ _ ((corners3_le _ _ _).2.2.1)),
      ite_pure_f32]
    simp only [bind_pure_f32]
    rw [lookup3_sound perm hlen hval _ _ _
        (modulo_add_le_256 _ _ ((corners3_le _ _ _).2.2.2.1))
        (modulo_add_le_256 _ _ ((corners3_le _ _ _).2.2.2.2.1))
        (modulo_add_lt_512 _ _ ((corners3_le _ _ _).2.2.2.2.2)),
      ite_pure_f32]
    simp only [bind_pure_f32]
    rw [lookup3_sound perm hlen hval _ _ _
        (modulo_add_le_256 _ 1 (by omega)) (modulo_add_le_256 _ 1 (by omega))
        (modulo_add_lt_512 _ 1 (by omega)),
      ite_pure_f32]
    simp only [bind_pure_f32]
    rfl

/-- Witness for C8 at the concrete base table and concrete inputs. -/
theorem claim_c8_witness :
    SimplexGen.simplex1dChk 0.6 PERMUTATION
        = some (SimplexGen.simplex1d 0.6 PERMUTATION) ∧
      SimplexGen.simplex2dChk 0.5 0.25 PERMUTATION
        = some (SimplexGen.simplex2d 0.5 0.25 PERMUTATION) ∧
      SimplexGen.simplex3dChk 0.5 0.25 0.75 PERMUTATION
        = some (SimplexGen.simplex3d 0.5 0.25 0.75 PERMUTATION) :=
  ⟨(claim_c8_index_safety PERMUTATION (by decide) (by decide)).1 0.6,
   (claim_c8_index_safety PERMUTATION (by decide) (by decide)).2.1 0.5 0.25,
   (claim_c8_index_safety PERMUTATION (by decide) (by decide)).2.2 0.5 0.25 0.75⟩

end Denali

namespace Denali

/-- Traversal order of the 2D noisemap fill: x over `0..w` (outer loop), y
over `0..h` (inner loop). -/
def fillPairs (w h : Nat) : List (Nat × Nat) :=
  (List.range w).flatMap fun xx => (List.range h).map fun yy => (xx, yy)

lemma foldl_set_length {α : Type} (f : α → Nat) (v : α → F32) (l : List α) (m : List F32) :
    (l.foldl (fun acc p => acc.set (f p) (v p)) m).length = m.length := by
  induction l generalizing m with
  | nil => rfl
  | cons a l ih =>
    rw [List.foldl_cons, ih, List.length_set]

lemma foldl_set_get_ne {α : Type} (f : α → Nat) (v : α → F32) (l : List α) (m : List F32)
    (i : Nat) (h : ∀ a ∈ l, f a ≠ i) :
    (l.foldl (fun acc p => acc.set (f p) (v p)) m)[i]? = m[i]? := by
  induction l generalizing m with
  | nil => rfl
  | cons a l ih =>
    rw [List.foldl_cons, ih _ (fun b hb => h b (List.mem_cons_of_mem a hb)),
      List.getElem?_set_ne (h a (List.mem_cons_self a l))]

lemma foldl_set_get_mem {α : Type} (f : α → Nat) (v : α → F32) (l : List α) (m : List F32)
    (hnd : (l.map f).Nodup) (hb : ∀ a ∈ l, f a < m.length) (a : α) (ha : a ∈ l) :
    (l.foldl (fun acc p => acc.set (f p) (v p)) m)[f a]? = some (v a) := by
  induction l generalizing m with
  | nil => cases ha
  | cons p l ih =>
    rw [List.foldl_cons]
    rw [List.map_cons, List.nodup_cons] at hnd
    rcases List.mem_cons.mp ha with rfl | hmem
    · have hni : ∀ b ∈ l, f b ≠ f a := fun b hb heq =>
        hnd.1 (heq ▸ List.mem_map_of_mem f hb)
      rw [foldl_set_get_ne _ _ _ _ _ hni,
        List.getElem?_set_eq_of_lt _ (hb a (List.mem_cons_self a l))]
    · exact ih _ hnd.2
        (fun b hbm => by rw [List.length_set]; exact hb b (List.mem_cons_of_mem p hbm)) hmem

lemma foldl_foldl_flatMap {α β : Type} (g : List F32 → α → List F32) (F : β → List α)
    (l : List β) (m : List F32) :
    l.foldl (fun acc b => (F b).foldl g acc) m = (l.flatMap F).foldl g m := by
  induction l generalizing m with
  | nil => rfl
  | cons b l ih =>
    rw [List.foldl_cons, ih, List.flatMap_cons, List.foldl_append]

lemma noisemap_flat (g : Simplex) (xs ys : F32) (map : List F32) (w : Nat) :
    g.generate_noisemap2D xs ys map w =
      (fillPairs w (map.length / w)).foldl
        (fun acc p => acc.set (p.1 + w * p.2)
          (g.generate2D (xs + F32.ofNat p.1) (ys + F32.ofNat p.2))) map := by
  unfold Simplex.generate_noisemap2D fillPairs
  rw [← foldl_foldl_flatMap]
  have key : ∀ (l : List Nat) (m : List F32), m.length = map.length →
      l.foldl (fun m2 x => (List.range (m2.length / w)).foldl
        (fun m3 y => m3.set (x + w * y)
          (g.generate2D (xs + F32.ofNat x) (ys + F32.ofNat y))) m2) m
      = l.foldl (fun acc xx => ((List.range (map.length / w)).map (fun yy => (xx, yy))).foldl
          (fun acc p => acc.set (p.1 + w * p.2)
            (g.generate2D (xs + F32.ofNat p.1) (ys + F32.ofNat p.2))) acc) m := by
    intro l
    induction l with
    | nil => intro m hm; rfl
    | cons a l ih =>
      intro m hm
      rw [List.foldl_cons, List.foldl_cons, hm, List.foldl_map]
      exact ih _ (by
        rw [foldl_set_length (fun y => a + w * y)
          (fun y => g.generate2D (xs + F32.ofNat a) (ys + F32.ofNat y))
          (List.range (map.length / w)) m]
        exact hm)
  exact key (List.range w) map rfl

lemma fillPairs_mem (w h : Nat) (p : Nat × Nat) :
    p ∈ fillPairs w h ↔ p.1 < w ∧ p.2 < h := by
  unfold fillPairs
  rw [List.mem_flatMap]
  constructor
  · rintro ⟨a, ha, hp⟩
    rw [List.mem_map] at hp
    obtain ⟨yy, hyy, rfl⟩ := hp
    exact ⟨by simpa using List.mem_range.mp ha, by simpa using List.mem_range.mp hyy⟩
  · rintro ⟨h1, h2⟩
    exact ⟨p.1, List.mem_range.mpr h1,
      List.mem_map.mpr ⟨p.2, List.mem_range.mpr h2, rfl⟩⟩

lemma fillPairs_nodup (w h : Nat) : (fillPairs w h).Nodup := by
  unfold fillPairs
  rw [List.nodup_flatMap]
  constructor
  · intro x _
    exact (List.nodup_range h).map (fun a b hab => by simpa using hab)
  · refine (List.pairwise_lt_range w).imp ?_
    intro a b hab q hq1 hq2
    rw [List.mem_map] at hq1 hq2
    obtain ⟨y1, _, rfl⟩ := hq1
    obtain ⟨y2, _, h2⟩ := hq2
    have : b = a := congrArg Prod.fst h2
    omega

lemma pair_idx_inj {w : Nat} (hw : 1 ≤ w) (a b c d : Nat) (ha : a < w) (hc : c < w)
    (h : a + w * b = c + w * d) : a = c ∧ b = d := by
  have h1 : (a + w * b) % w = a := by
    rw [Nat.add_mul_mod_self_left, Nat.mod_eq_of_lt ha]
  have h2 : (c + w * d) % w = c := by
    rw [Nat.add_mul_mod_self_left, Nat.mod_eq_of_lt hc]
  have hac : a = c := by rw [← h1, h, h2]
  refine ⟨hac, ?_⟩
  have hmul : w * b = w * d := by omega
  exact Nat.eq_of_mul_eq_mul_left (by omega) hmul

lemma pair_idx_lt {w : Nat} (len : Nat) (p : Nat × Nat)
    (h1 : p.1 < w) (h2 : p.2 < len / w) : p.1 + w * p.2 < len :=
  calc p.1 + w * p.2 < w + w * p.2 := by omega
    _ = w * (p.2 + 1) := by ring
    _ ≤ w * (len / w) := Nat.mul_le_mul_left w h2
    _ = (len / w) * w := Nat.mul_comm w (len / w)
    _ ≤ len := Nat.div_mul_le_self len w

/-- C6: generate_noisemap2D writes generate2D(x_start + x, y_start + y) into
cell x + w*y for every x < w and y < len/w (integer division), and leaves
every cell at index at least w*(len/w) unchanged; a length not divisible by
w silently truncates the fill. -/
theorem claim_c6_noisemap_fill (g : Simplex) (xs ys : F32) (map : List F32) (w : Nat)
    (hw : 1 ≤ w) :
    (∀ x y : Nat, x < w → y < map.length / w →
      (g.generate_noisemap2D xs ys map w)[x + w * y]?
        = some (g.generate2D (xs + F32.ofNat x) (ys + F32.ofNat y))) ∧
    (∀ i : Nat, w * (map.length / w) ≤ i →
      (g.generate_noisemap2D xs ys map w)[i]? = map[i]?) := by
  constructor
  · intro x y hx hy
    rw [noisemap_flat]
    exact foldl_set_get_mem (fun p => p.1 + w * p.2)
      (fun p => g.generate2D (xs + F32.ofNat p.1) (ys + F32.ofNat p.2))
      (fillPairs w (map.length / w)) map
      ((fillPairs_nodup w (map.length / w)).map_on (fun p hp q hq hpq => by
        obtain ⟨hp1, hp2⟩ := (fillPairs_mem _ _ p).mp hp
        obtain ⟨hq1, hq2⟩ := (fillPairs_mem _ _ q).mp hq
        obtain ⟨e1, e2⟩ := pair_idx_inj hw p.1 p.2 q.1 q.2 hp1 hq1 hpq
        exact Prod.ext e1 e2))
      (fun p hp => by
        obtain ⟨hp1, hp2⟩ := (fillPairs_mem _ _ p).mp hp
        exact pair_idx_lt map.length p hp1 hp2)
      (x, y) ((fillPairs_mem _ _ (x, y)).mpr ⟨hx, hy⟩)
  · intro i hi
    rw [noisemap_flat]
    refine foldl_set_get_ne _ _ _ _ _ (fun p hp heq => ?_)
    obtain ⟨hp1, hp2⟩ := (fillPairs_mem _ _ p).mp hp
    have hlt : p.1 + w * p.2 < w * (map.length / w) :=
      calc p.1 + w * p.2 < w + w * p.2 := by omega
        _ = w * (p.2 + 1) := by ring
        _ ≤ w * (map.length / w) := Nat.mul_le_mul_left w hp2
    omega

/-- Witness for C6 on a three-cell buffer of width 2 (one full row, one
truncated cell left untouched). -/
theorem claim_c6_witness :
    (sampleGen.generate_noisemap2D 0.0 0.0 [7.0, 7.0, 7.0] 2)[1 + 2 * 0]?
        = some (sampleGen.generate2D (0.0 + F32.ofNat 1) (0.0 + F32.ofNat 0)) ∧
      (sampleGen.generate_noisemap2D 0.0 0.0 [7.0, 7.0, 7.0] 2)[2]?
        = some (7.0 : F32) := by
  have h := claim_c6_noisemap_fill sampleGen 0.0 0.0 [7.0, 7.0, 7.0] 2 (by omega)
  refine ⟨h.1 1 0 (by omega) (by norm_num), ?_⟩
  rw [h.2 2 (by norm_num)]
  rfl

end Denali

namespace Denali

lemma finRange_map_perm (σ : Equiv.Perm (Fin 256)) :
    ((List.finRange 256).map σ).Perm (List.finRange 256) := by
  refine List.perm_iff_count.mpr fun b => ?_
  have h1 : ((List.finRange 256).map σ).count b = 1 :=
    List.count_eq_one_of_mem
      ((List.nodup_finRange 256).map σ.injective)
      (by
        have : b = σ (σ.symm b) := (σ.apply_symm_apply b).symm
        rw [this]
        exact List.mem_map_of_mem σ (List.mem_finRange (σ.symm b)))
  have h2 : (List.finRange 256).count b = 1 :=
    List.count_eq_one_of_mem (List.nodup_finRange 256) (List.mem_finRange b)
  rw [h1, h2]

/-- C1 theorem: the specification construction (shuffle only the first 256
entries, then duplicate them) satisfies the table invariant for EVERY
shuffle, while the construction of the source (one swap shuffle over the
whole 512-entry array, never re-duplicated) violates it already when the
PRNG stream swaps position 0 with position 257; change_seed installs exactly
the table built by get_perm. -/
lemma set_getD_self (l : List Nat) (i : Nat) : l.set i (l.getD i 0) = l := by
  by_cases h : i < l.length
  · rw [List.getD_eq_getElem l 0 h]
    apply List.ext_getElem
    · simp
    · intro n h1 h2
      rw [List.getElem_set]
      split
      · next heq => subst heq; rfl
      · rfl
  · exact List.set_eq_of_length_le (by omega)

lemma listSwap_self (l : List Nat) (i : Nat) : listSwap l i i = l := by
  unfold listSwap
  dsimp only
  rw [List.set_set, set_getD_self]

lemma fold_swaps_once (g : List Nat → Nat → List Nat) (m : List Nat) :
    ∀ n : Nat, 1 ≤ n → (∀ (acc : List Nat) (k : Nat), 1 ≤ k → k < n → g acc k = acc) →
      (List.range n).foldl g m = g m 0 := by
  intro n
  induction n with
  | zero => intro h _; omega
  | succ n ih =>
    intro _ hid
    rw [List.range_succ, List.foldl_append]
    by_cases hn : 1 ≤ n
    · rw [ih hn (fun acc k h1 h2 => hid acc k h1 (by omega))]
      show g (g m 0) n = g m 0
      exact hid _ n hn (by omega)
    · have h0 : n = 0 := by omega
      subst h0
      rfl

/-- With the PRNG stream that swaps position 0 with position 257 and leaves
every other step a self-swap, the whole-array shuffle of the source performs
exactly one cross-half swap. -/
lemma get_perm_single_swap :
    get_perm (fun i => if i == 0 then 257 else i) = listSwap PERMUTATION 0 257 := by
  unfold get_perm shuffleSwaps
  have hlen : PERMUTATION.length = 512 := by decide
  rw [hlen]
  rw [fold_swaps_once _ _ 512 (by omega) ?_]
  · rfl
  · intro acc k hk hklt
    have hk0 : (k == 0) = false := beq_eq_false_iff_ne.mpr (by omega)
    show listSwap acc k ((if (k == 0) = true then 257 else k) % 512) = acc
    rw [hk0]
    simp only [Bool.false_eq_true, if_false]
    rw [Nat.mod_eq_of_lt hklt, listSwap_self]

set_option maxHeartbeats 1600000 in
theorem claim_c1_table_invariant :
    (∀ σ : Equiv.Perm (Fin 256), tableOk (get_perm_spec σ) = true) ∧
    tableOk (get_perm (fun i => if i == 0 then 257 else i)) = false ∧
    (∀ (g : Simplex) (s : Nat) (picks : Nat → Nat),
      (g.change_seed s picks).perm = get_perm picks) := by
  refine ⟨?_, by rw [get_perm_single_swap]; decide, ?_⟩
  case refine_2 =>
    intro g s picks
    unfold Simplex.change_seed
    dsimp only
  case refine_1 =>
  intro σ
  unfold tableOk get_perm_spec
  dsimp only
  have hlen : ((List.finRange 256).map
      (fun i => (PERMUTATION.take 256).getD (σ i) 0)).length = 256 := by
    rw [List.length_map, List.length_finRange]
  rw [List.take_left' hlen, List.drop_left' hlen, Bool.and_eq_true, beq_self_eq_true]
  refine ⟨?_, rfl⟩
  rw [List.all_eq_true]
  intro v hv
  have hcomp : (List.finRange 256).map (fun i => (PERMUTATION.take 256).getD (σ i) 0)
      = ((List.finRange 256).map σ).map
          (fun i : Fin 256 => (PERMUTATION.take 256).getD i 0) := by
    rw [List.map_map]
    rfl
  have hperm := (finRange_map_perm σ).map
    (fun i : Fin 256 => (PERMUTATION.take 256).getD i 0)
  have hbase : (List.range 256).all
      (fun v => ((List.finRange 256).map
        (fun i : Fin 256 => (PERMUTATION.take 256).getD i 0)).count v == 1) = true := by
    decide
  rw [hcomp]
  have := (List.all_eq_true.mp hbase) v hv
  rw [beq_iff_eq] at this ⊢
  rw [hperm.count_eq, this]

end Denali
